import Mathlib

/-!
Verification development for the nested-axle 3D camera repository.

The definitions below are a shallow embedding, over the real numbers, of the
source files `utils.js`, `geometry.js` (the `Vector3` / `Direction2` / `Plane`
kernel and the ray helpers) and `NA3DCamera.js` (the camera state machine).
JavaScript in-place mutation is rendered as value-passing: every method that
mutates its receiver becomes a function returning the updated value, which is
observationally equivalent for the single-threaded source code.
-/

noncomputable section

namespace Geometry

namespace Utils

/-- Shared tolerance, `export const epsilon = 1e-8` in `utils.js`. -/
def epsilon : ℝ := 1e-8

/-- `lerp(from, to, t) = (to - from)*t + from` from `utils.js`. -/
def lerp (a b t : ℝ) : ℝ := (b - a) * t + a

/-- `clamp(low, x, high)` from `utils.js`. -/
def clamp (low x high : ℝ) : ℝ :=
  if x ≤ low then low else if high ≤ x then high else x

/-- `isZero(x) = Math.abs(x) <= epsilon` from `utils.js`. -/
@[reducible] def isZero (x : ℝ) : Prop := |x| ≤ epsilon

end Utils

/-- The 3D vector value type of `geometry.js`. -/
@[ext] structure Vector3 where
  x : ℝ
  y : ℝ
  z : ℝ

namespace Vector3

/-- `Vector3.cross` from `geometry.js`. -/
def cross (a b : Vector3) : Vector3 :=
  ⟨a.y * b.z - a.z * b.y, a.z * b.x - a.x * b.z, a.x * b.y - a.y * b.x⟩

/-- `Vector3.dot` from `geometry.js`. -/
def dot (a b : Vector3) : ℝ := a.x * b.x + a.y * b.y + a.z * b.z

/-- `Vector3.lerp` (component-wise) from `geometry.js`. -/
def lerp (a b : Vector3) (t : ℝ) : Vector3 :=
  ⟨Utils.lerp a.x b.x t, Utils.lerp a.y b.y t, Utils.lerp a.z b.z t⟩

/-- `Vector3.angleBetween(a, b) = acos(dot(a, b))`; inputs assumed unit. -/
def angleBetween (a b : Vector3) : ℝ := Real.arccos (dot a b)

/-- `Vector3.prototype.opposite`. -/
def opposite (v : Vector3) : Vector3 := ⟨-v.x, -v.y, -v.z⟩

/-- `Vector3.prototype.increasedBy` (pure addition). -/
def increasedBy (v w : Vector3) : Vector3 := ⟨v.x + w.x, v.y + w.y, v.z + w.z⟩

/-- `Vector3.prototype.decreasedBy` (pure subtraction). -/
def decreasedBy (v w : Vector3) : Vector3 := ⟨v.x - w.x, v.y - w.y, v.z - w.z⟩

/-- `Vector3.prototype.times` (scalar scale). -/
def times (v : Vector3) (a : ℝ) : Vector3 := ⟨a * v.x, a * v.y, a * v.z⟩

/-- `Vector3.difference(from, to) = to.increasedBy(from.times(-1))`. -/
def difference (a b : Vector3) : Vector3 := increasedBy b (times a (-1))

/-- `Vector3.signedAngleBetween` from `geometry.js`. -/
def signedAngleBetween (a b axis : Vector3) : ℝ :=
  if dot (cross a b) axis < 0 then -(angleBetween a b) else angleBetween a b

/-- `Vector3.prototype.isZero`: every component within epsilon of zero. -/
@[reducible] def isZero (v : Vector3) : Prop :=
  Utils.isZero v.x ∧ Utils.isZero v.y ∧ Utils.isZero v.z

/-- `Vector3.prototype.norm`. -/
def norm (v : Vector3) : ℝ := Real.sqrt (v.x * v.x + v.y * v.y + v.z * v.z)

/-- `Vector3.prototype.normalize`: divides by the norm, no-op on a
(tolerance-)zero vector. -/
def normalize (v : Vector3) : Vector3 :=
  if isZero v then v else ⟨v.x / norm v, v.y / norm v, v.z / norm v⟩

/-- `Vector3.prototype.rotateAboutOrthogonal(other, radians)`:
`cos θ · self + sin θ · cross(other, self)`, no-op on a zero receiver. -/
def rotateAboutOrthogonal (v other : Vector3) (θ : ℝ) : Vector3 :=
  if isZero v then v
  else increasedBy (times v (Real.cos θ)) (times (cross other v) (Real.sin θ))

/-- The `aParallel` local of `rotateAbout`: `b * (dot(a,b)/dot(b,b))`. -/
def aPar (a b : Vector3) : Vector3 := times b (dot a b / dot b b)

/-- The `aOrth` local of `rotateAbout`: `a + aParallel * (-1)`. -/
def aOrth (a b : Vector3) : Vector3 := increasedBy a (times (aPar a b) (-1))

/-- The `w` local of `rotateAbout`: `cross(b, aOrth)`. -/
def wVec (a b : Vector3) : Vector3 := cross b (aOrth a b)

/-- `Vector3.prototype.rotateAbout(other, radians)`: general rotation by
parallel/orthogonal decomposition, no-op when the orthogonal component's
norm is below epsilon. -/
def rotateAbout (a other : Vector3) (θ : ℝ) : Vector3 :=
  if norm (aOrth a other) < Utils.epsilon then a
  else
    let x1 := Real.cos θ / norm (aOrth a other)
    let x2 := Real.sin θ / norm (wVec a other)
    increasedBy
      (times (increasedBy (times (aOrth a other) x1) (times (wVec a other) x2))
        (norm (aOrth a other)))
      (aPar a other)

/-- `Vector3.prototype.projectedOntoVector`. -/
def projectedOntoVector (u v : Vector3) : Vector3 := times v (dot u v / dot v v)

end Vector3

/-- The `Plane` class of `geometry.js`: `{p : dot(n, p) + d = 0}`. -/
structure Plane where
  n : Vector3
  d : ℝ

/-- The ray interface of `geometry.js`: origin `P` plus direction `v`. -/
structure Ray where
  P : Vector3
  v : Vector3

/-- `rayPlaneIntersection(ray, plane)` from `geometry.js`. -/
def rayPlaneIntersection (ray : Ray) (plane : Plane) : Option Vector3 :=
  let den := Vector3.dot plane.n ray.v
  if Utils.isZero den then none
  else
    let t := -(Vector3.dot plane.n ray.P + plane.d) / den
    if t < 0 then none
    else some (Vector3.increasedBy ray.P (Vector3.times ray.v t))

/-- The two-angle directional representation of `geometry.js`. -/
structure Direction2 where
  h : ℝ
  v : ℝ

namespace Direction2

/-- `Direction2.fromVector3(u, vertical, horizontal)` from `geometry.js`:
elevation from `angleBetween`, then the receiver is leveled with
`rotateAboutOrthogonal` about `cross(u, vertical)` (as in the source, this
axis is not normalized) and the azimuth read off with `signedAngleBetween`. -/
def fromVector3 (u vertical horizontal : Vector3) : Direction2 :=
  let v := Real.pi / 2 - Vector3.angleBetween u vertical
  let right := Vector3.cross u vertical
  let hDirection := Vector3.rotateAboutOrthogonal u right (-v)
  let h := Vector3.signedAngleBetween horizontal hDirection vertical
  ⟨h, v⟩

/-- `Direction2.prototype.toVector3(vertical, horizontal)` from `geometry.js`. -/
def toVector3 (d : Direction2) (vertical horizontal : Vector3) : Vector3 :=
  let result := Vector3.rotateAboutOrthogonal horizontal vertical d.h
  let right := Vector3.cross result vertical
  Vector3.rotateAboutOrthogonal result right d.v

end Direction2

/-- The camera state of `NA3DCamera.js`: the private `#`-fields of the class. -/
structure NA3DCamera where
  position : Vector3
  pedestal : Vector3
  horizontal : Vector3
  look : Vector3
  right : Vector3
  up : Vector3
  t : ℝ
  s : ℝ
  xAng : ℝ
  yAng : ℝ
  targetXang : ℝ
  targetYang : ℝ
  rInclinAng : ℝ
  fInclinAng : ℝ
  targetRInclinAng : ℝ
  targetFInclinAng : ℝ
  targetPosition : Vector3
  maxUpAng : ℝ
  minUpAng : ℝ

namespace NA3DCamera

/-- `#changeHand(v)`: negate the second component. -/
def changeHand (v : Vector3) : Vector3 := ⟨v.x, -v.y, v.z⟩

/-- `#changeAngleHand(a)`: negate the angle. -/
def changeAngleHand (a : ℝ) : ℝ := -a

/-- `get construct3Position()`. -/
def construct3Position (c : NA3DCamera) : Vector3 := changeHand c.position

/-- `get construct3Forward()`. -/
def construct3Forward (c : NA3DCamera) : Vector3 := changeHand c.look

/-- `get construct3Up()`: returned as a copy, with no hand change. -/
def construct3Up (c : NA3DCamera) : Vector3 := c.up

/-- `get construct3Right()`. -/
def construct3Right (c : NA3DCamera) : Vector3 := changeHand c.right

/-- `get xAngle()`. -/
def xAngle (c : NA3DCamera) : ℝ := changeAngleHand c.xAng

/-- `setSmoothness(look, position)`. -/
def setSmoothness (look position : ℝ) (c : NA3DCamera) : NA3DCamera :=
  { c with t := 1 - Utils.clamp 0.001 look 0.999,
           s := 1 - Utils.clamp 0.001 position 0.999 }

/-- `#updateRight()`: `right = cross(look, pedestal).normalize()`. -/
def updateRight (c : NA3DCamera) : NA3DCamera :=
  { c with right := (Vector3.cross c.look c.pedestal).normalize }

/-- `#updateUp()`: `up = cross(right, look)`. -/
def updateUp (c : NA3DCamera) : NA3DCamera :=
  { c with up := Vector3.cross c.right c.look }

/-- `#updateAngles()`: refresh the four angle fields from the look vector. -/
def updateAngles (c : NA3DCamera) : NA3DCamera :=
  let direction := Direction2.fromVector3 c.look c.pedestal c.horizontal
  { c with xAng := direction.h, yAng := direction.v,
           targetXang := direction.h, targetYang := direction.v }

/-- The constructor of `NA3DCamera`. -/
def mk' (position pedestal look : Vector3) (xAngArg maxAbsUpAng : ℝ) :
    NA3DCamera :=
  let positionI := changeHand position
  let pedestalI := (changeHand pedestal).normalize
  let lookI := (changeHand look).normalize
  let rightI := (Vector3.cross lookI pedestalI).normalize
  let upI := Vector3.cross rightI lookI
  let yAngI := Real.pi / 2 - Vector3.angleBetween pedestalI lookI
  let xAngI := changeAngleHand xAngArg
  let horizontal0 := Vector3.rotateAboutOrthogonal lookI rightI (-yAngI)
  let horizontalI := Vector3.rotateAboutOrthogonal horizontal0 pedestalI (-xAngI)
  { position := positionI, pedestal := pedestalI, horizontal := horizontalI,
    look := lookI, right := rightI, up := upI, t := 1, s := 1,
    xAng := xAngI, yAng := yAngI, targetXang := xAngI, targetYang := yAngI,
    rInclinAng := 0, fInclinAng := 0, targetRInclinAng := 0,
    targetFInclinAng := 0, targetPosition := positionI,
    maxUpAng := maxAbsUpAng, minUpAng := -maxAbsUpAng }

/-- `setLook(look)`. -/
def setLook (look : Vector3) (c : NA3DCamera) : NA3DCamera :=
  updateUp (updateRight (updateAngles { c with look := (changeHand look).normalize }))

/-- `setLookSmooth(look)`. -/
def setLookSmooth (look : Vector3) (c : NA3DCamera) : NA3DCamera :=
  let lookI := (changeHand look).normalize
  let direction := Direction2.fromVector3 lookI c.pedestal c.horizontal
  { c with targetXang := direction.h, targetYang := direction.v }

/-- `lookAt(target)`. -/
def lookAt (target : Vector3) (c : NA3DCamera) : NA3DCamera :=
  setLook (Vector3.difference (changeHand c.position) target) c

/-- `lookAtSmooth(target)`. -/
def lookAtSmooth (target : Vector3) (c : NA3DCamera) : NA3DCamera :=
  setLookSmooth (Vector3.difference (changeHand c.position) target) c

/-- `rotateLeft(radians)`: accumulate into the horizontal target only. -/
def rotateLeft (radians : ℝ) (c : NA3DCamera) : NA3DCamera :=
  { c with targetXang := c.targetXang + radians }

/-- `#actuallyRotateLeft(radians)`: below-epsilon no-op, else rotate `look`
about `pedestal` by `radians`, recompute `right`/`up`, advance `xAng`. -/
def actuallyRotateLeft (radians : ℝ) (c : NA3DCamera) : NA3DCamera :=
  if Utils.isZero radians then c
  else
    let c2 := updateUp (updateRight { c with
      look := Vector3.rotateAbout c.look c.pedestal radians })
    { c2 with xAng := c2.xAng + radians }

/-- `rotateUp(radians)`: target pre-clamped to `[minUpAng, maxUpAng]`. -/
def rotateUp (radians : ℝ) (c : NA3DCamera) : NA3DCamera :=
  { c with targetYang := Utils.clamp c.minUpAng (c.targetYang + radians) c.maxUpAng }

/-- `#actuallyRotateUp(radians)`: clamped application of the vertical delta. -/
def actuallyRotateUp (radians : ℝ) (c : NA3DCamera) : NA3DCamera :=
  if Utils.isZero radians then c
  else if c.maxUpAng < c.yAng + radians then
    updateUp { c with
      look := Vector3.rotateAboutOrthogonal c.look c.right (c.maxUpAng - c.yAng),
      yAng := c.maxUpAng }
  else if c.yAng + radians < c.minUpAng then
    updateUp { c with
      look := Vector3.rotateAboutOrthogonal c.look c.right (c.minUpAng - c.yAng),
      yAng := c.minUpAng }
  else
    updateUp { c with
      look := Vector3.rotateAboutOrthogonal c.look c.right radians,
      yAng := c.yAng + radians }

/-- `inclineRight(radians)` (target-only accumulation). -/
def inclineRight (radians : ℝ) (c : NA3DCamera) : NA3DCamera :=
  { c with targetRInclinAng := c.targetRInclinAng + radians }

/-- `#actuallyInclineRight(radians)`. -/
def actuallyInclineRight (radians : ℝ) (c : NA3DCamera) : NA3DCamera :=
  if |radians| < Utils.epsilon then c
  else
    let axis := Vector3.cross c.pedestal c.right
    let c2 := updateUp (updateRight { c with
      pedestal := Vector3.rotateAboutOrthogonal c.pedestal axis radians,
      look := Vector3.rotateAbout c.look axis radians })
    { c2 with rInclinAng := c2.rInclinAng + radians }

/-- `inclineForward(radians)` (target-only accumulation). -/
def inclineForward (radians : ℝ) (c : NA3DCamera) : NA3DCamera :=
  { c with targetFInclinAng := c.targetFInclinAng + radians }

/-- `#actuallyInclineForward(radians)`; note that `right` is not recomputed. -/
def actuallyInclineForward (radians : ℝ) (c : NA3DCamera) : NA3DCamera :=
  if |radians| < Utils.epsilon then c
  else
    let c2 := updateUp { c with
      pedestal := Vector3.rotateAbout c.pedestal c.right radians,
      look := Vector3.rotateAboutOrthogonal c.look c.right radians }
    { c2 with fInclinAng := c2.fInclinAng + radians }

/-- `#setXangle(radians)`. -/
def setXangle (radians : ℝ) (c : NA3DCamera) : NA3DCamera :=
  actuallyRotateLeft (radians - c.xAng) c

/-- `#setYangle(radians)`. -/
def setYangle (radians : ℝ) (c : NA3DCamera) : NA3DCamera :=
  actuallyRotateUp (radians - c.yAng) c

/-- `#setRInclinAng(radians)`. -/
def setRInclinAng (radians : ℝ) (c : NA3DCamera) : NA3DCamera :=
  actuallyInclineRight (radians - c.rInclinAng) c

/-- `#setFInclinAng(radians)`. -/
def setFInclinAng (radians : ℝ) (c : NA3DCamera) : NA3DCamera :=
  actuallyInclineForward (radians - c.fInclinAng) c

/-- `setPosition(position)`: also resets the position target. -/
def setPosition (position : Vector3) (c : NA3DCamera) : NA3DCamera :=
  { c with position := changeHand position, targetPosition := changeHand position }

/-- `setPositionSmooth(position)`: target only. -/
def setPositionSmooth (position : Vector3) (c : NA3DCamera) : NA3DCamera :=
  { c with targetPosition := changeHand position }

/-- `moveRight(amount)`: immediate translation along `right`. -/
def moveRight (amount : ℝ) (c : NA3DCamera) : NA3DCamera :=
  { c with position := Vector3.increasedBy c.position (Vector3.times c.right amount) }

/-- `moveForward(amount)`: immediate translation along `look`. -/
def moveForward (amount : ℝ) (c : NA3DCamera) : NA3DCamera :=
  { c with position := Vector3.increasedBy c.position (Vector3.times c.look amount) }

/-- `moveUp(amount)`: immediate translation along `up`. -/
def moveUp (amount : ℝ) (c : NA3DCamera) : NA3DCamera :=
  { c with position := Vector3.increasedBy c.position (Vector3.times c.up amount) }

/-- The first tick step of `update()`: the horizontal angle. -/
def stepX (c : NA3DCamera) : NA3DCamera :=
  setXangle (Utils.lerp c.xAng c.targetXang c.t) c

/-- The second tick step of `update()`: the vertical angle. -/
def stepY (c : NA3DCamera) : NA3DCamera :=
  setYangle (Utils.lerp c.yAng c.targetYang c.t) c

/-- The third tick step of `update()`: right inclination. -/
def stepR (c : NA3DCamera) : NA3DCamera :=
  setRInclinAng (Utils.lerp c.rInclinAng c.targetRInclinAng c.t) c

/-- The fourth tick step of `update()`: forward inclination. -/
def stepF (c : NA3DCamera) : NA3DCamera :=
  setFInclinAng (Utils.lerp c.fInclinAng c.targetFInclinAng c.t) c

/-- `update()`: apply the four interpolated angle deltas in order, then
interpolate the position. -/
def update (c : NA3DCamera) : NA3DCamera :=
  let c4 := stepF (stepR (stepY (stepX c)))
  { c4 with position := Vector3.lerp c4.position c4.targetPosition c4.s }

/-- The internal frame invariant maintained by the camera: `look` and
`pedestal` are unit, their cross product is not (tolerance-)zero, and the
derived vectors satisfy the recomputation formulas of `#updateRight` /
`#updateUp`. -/
def StrongInv (c : NA3DCamera) : Prop :=
  Vector3.dot c.look c.look = 1 ∧
  Vector3.dot c.pedestal c.pedestal = 1 ∧
  ¬ (Vector3.cross c.look c.pedestal).isZero ∧
  c.right = (Vector3.cross c.look c.pedestal).normalize ∧
  c.up = Vector3.cross c.right c.look

/-- The observable conclusion of the spec's frame invariant: `right`, `up`,
`look` pairwise orthogonal unit vectors, with the stated derivation
formulas. -/
def FrameConc (c : NA3DCamera) : Prop :=
  c.look.norm = 1 ∧ c.right.norm = 1 ∧ c.up.norm = 1 ∧
  Vector3.dot c.look c.right = 0 ∧ Vector3.dot c.look c.up = 0 ∧
  Vector3.dot c.right c.up = 0 ∧
  c.right = (Vector3.cross c.look c.pedestal).normalize ∧
  c.up = Vector3.cross c.right c.look

/-- Non-degeneracy condition for one `#actuallyRotateLeft` application. -/
def rlOK (r : ℝ) (c : NA3DCamera) : Prop :=
  Utils.isZero r ∨
    ¬ (Vector3.cross (Vector3.rotateAbout c.look c.pedestal r) c.pedestal).isZero

/-- The elevation delta `#actuallyRotateUp` actually applies to `look`. -/
def upApplied (r : ℝ) (c : NA3DCamera) : ℝ :=
  if c.maxUpAng < c.yAng + r then c.maxUpAng - c.yAng
  else if c.yAng + r < c.minUpAng then c.minUpAng - c.yAng
  else r

/-- Non-degeneracy condition for one `#actuallyRotateUp` application: the
rotated look vector stays non-collinear with the pedestal, and the stale
`right` vector still matches the recomputation formula. -/
def ruOK (r : ℝ) (c : NA3DCamera) : Prop :=
  Utils.isZero r ∨
    (¬ (Vector3.cross
          (Vector3.rotateAboutOrthogonal c.look c.right (upApplied r c))
          c.pedestal).isZero ∧
      (Vector3.cross
          (Vector3.rotateAboutOrthogonal c.look c.right (upApplied r c))
          c.pedestal).normalize = c.right)

/-- Non-degeneracy condition for one `#actuallyInclineRight` application. -/
def irOK (r : ℝ) (c : NA3DCamera) : Prop :=
  |r| < Utils.epsilon ∨
    ¬ (Vector3.cross
        (Vector3.rotateAbout c.look (Vector3.cross c.pedestal c.right) r)
        (Vector3.rotateAboutOrthogonal c.pedestal
          (Vector3.cross c.pedestal c.right) r)).isZero

/-- Non-degeneracy condition for one `#actuallyInclineForward` application. -/
def ifOK (r : ℝ) (c : NA3DCamera) : Prop :=
  |r| < Utils.epsilon ∨
    (¬ (Vector3.cross (Vector3.rotateAboutOrthogonal c.look c.right r)
          (Vector3.rotateAbout c.pedestal c.right r)).isZero ∧
      (Vector3.cross (Vector3.rotateAboutOrthogonal c.look c.right r)
          (Vector3.rotateAbout c.pedestal c.right r)).normalize = c.right)

/-- Non-degeneracy condition for `setLook`. -/
def slOK (v : Vector3) (c : NA3DCamera) : Prop :=
  ¬ (changeHand v).isZero ∧
    ¬ (Vector3.cross ((changeHand v).normalize) c.pedestal).isZero

end NA3DCamera

/-- The public mutators of the camera, as an inductive family. -/
inductive Mut where
  | setLook (v : Vector3)
  | setLookSmooth (v : Vector3)
  | lookAt (p : Vector3)
  | lookAtSmooth (p : Vector3)
  | rotateLeft (r : ℝ)
  | rotateUp (r : ℝ)
  | inclineRight (r : ℝ)
  | inclineForward (r : ℝ)
  | update
  | setPosition (p : Vector3)
  | setPositionSmooth (p : Vector3)
  | moveRight (a : ℝ)
  | moveForward (a : ℝ)
  | moveUp (a : ℝ)
  | setSmoothness (l p : ℝ)

namespace Mut

/-- Interpretation of a mutator as a state transformer of the camera. -/
def apply : Mut → NA3DCamera → NA3DCamera
  | .setLook v, c => NA3DCamera.setLook v c
  | .setLookSmooth v, c => NA3DCamera.setLookSmooth v c
  | .lookAt p, c => NA3DCamera.lookAt p c
  | .lookAtSmooth p, c => NA3DCamera.lookAtSmooth p c
  | .rotateLeft r, c => NA3DCamera.rotateLeft r c
  | .rotateUp r, c => NA3DCamera.rotateUp r c
  | .inclineRight r, c => NA3DCamera.inclineRight r c
  | .inclineForward r, c => NA3DCamera.inclineForward r c
  | .update, c => NA3DCamera.update c
  | .setPosition p, c => NA3DCamera.setPosition p c
  | .setPositionSmooth p, c => NA3DCamera.setPositionSmooth p c
  | .moveRight a, c => NA3DCamera.moveRight a c
  | .moveForward a, c => NA3DCamera.moveForward a c
  | .moveUp a, c => NA3DCamera.moveUp a c
  | .setSmoothness l p, c => NA3DCamera.setSmoothness l p c

/-- Per-mutator non-degeneracy conditions: whenever a mutator rotates or
replaces the look/pedestal vectors, the resulting look vector must stay
non-collinear with the pedestal (beyond tolerance), and for the two
operators that do not recompute `right` (vertical rotation and forward
inclination) the stale `right` must still match the recomputation
formula. -/
def admissible : Mut → NA3DCamera → Prop
  | .setLook v, c => NA3DCamera.slOK v c
  | .lookAt p, c =>
      NA3DCamera.slOK
        (Vector3.difference (NA3DCamera.changeHand c.position) p) c
  | .update, c =>
      NA3DCamera.rlOK (Utils.lerp c.xAng c.targetXang c.t - c.xAng) c ∧
      NA3DCamera.ruOK
        (Utils.lerp (NA3DCamera.stepX c).yAng (NA3DCamera.stepX c).targetYang
          (NA3DCamera.stepX c).t - (NA3DCamera.stepX c).yAng)
        (NA3DCamera.stepX c) ∧
      NA3DCamera.irOK
        (Utils.lerp (NA3DCamera.stepY (NA3DCamera.stepX c)).rInclinAng
          (NA3DCamera.stepY (NA3DCamera.stepX c)).targetRInclinAng
          (NA3DCamera.stepY (NA3DCamera.stepX c)).t -
          (NA3DCamera.stepY (NA3DCamera.stepX c)).rInclinAng)
        (NA3DCamera.stepY (NA3DCamera.stepX c)) ∧
      NA3DCamera.ifOK
        (Utils.lerp
          (NA3DCamera.stepR (NA3DCamera.stepY (NA3DCamera.stepX c))).fInclinAng
          (NA3DCamera.stepR (NA3DCamera.stepY (NA3DCamera.stepX c))).targetFInclinAng
          (NA3DCamera.stepR (NA3DCamera.stepY (NA3DCamera.stepX c))).t -
          (NA3DCamera.stepR (NA3DCamera.stepY (NA3DCamera.stepX c))).fInclinAng)
        (NA3DCamera.stepR (NA3DCamera.stepY (NA3DCamera.stepX c)))
  | _, _ => True

end Mut

/-- A fully concrete camera state used to instantiate the theorems: level
view along the internal `y` axis with the pedestal on `z`. -/
def demoCamera : NA3DCamera where
  position := ⟨0, 0, 0⟩
  pedestal := ⟨0, 0, 1⟩
  horizontal := ⟨0, 1, 0⟩
  look := ⟨0, 1, 0⟩
  right := ⟨1, 0, 0⟩
  up := ⟨0, 0, 1⟩
  t := 1
  s := 1
  xAng := 0
  yAng := 0
  targetXang := 0
  targetYang := 0
  rInclinAng := 0
  fInclinAng := 0
  targetRInclinAng := 0
  targetFInclinAng := 0
  targetPosition := ⟨0, 0, 0⟩
  maxUpAng := 1
  minUpAng := -1

namespace Vector3

theorem dot_comm (a b : Vector3) : dot a b = dot b a := by
  simp only [dot]; ring

theorem dot_increasedBy_left (u v w : Vector3) :
    dot (increasedBy u v) w = dot u w + dot v w := by
  simp only [dot, increasedBy]; ring

theorem dot_increasedBy_right (u v w : Vector3) :
    dot u (increasedBy v w) = dot u v + dot u w := by
  simp only [dot, increasedBy]; ring

theorem dot_times_left (u w : Vector3) (a : ℝ) :
    dot (times u a) w = a * dot u w := by
  simp only [dot, times]; ring

theorem dot_times_right (u w : Vector3) (a : ℝ) :
    dot u (times w a) = a * dot u w := by
  simp only [dot, times]; ring

theorem dot_cross_fst (a b : Vector3) : dot (cross a b) a = 0 := by
  simp only [dot, cross]; ring

theorem dot_cross_snd (a b : Vector3) : dot (cross a b) b = 0 := by
  simp only [dot, cross]; ring

theorem lagrange (a b : Vector3) :
    dot (cross a b) (cross a b) = dot a a * dot b b - dot a b * dot a b := by
  simp only [dot, cross]; ring

theorem dot_cross_swap (a b : Vector3) :
    dot (cross a b) (cross b a) = -(dot a a * dot b b - dot a b * dot a b) := by
  simp only [dot, cross]; ring

theorem dot_self_nonneg (v : Vector3) : 0 ≤ dot v v := by
  simp only [dot]
  have hx := mul_self_nonneg v.x
  have hy := mul_self_nonneg v.y
  have hz := mul_self_nonneg v.z
  linarith

theorem norm_eq_sqrt_dot (v : Vector3) : norm v = Real.sqrt (dot v v) := rfl

theorem norm_nonneg' (v : Vector3) : 0 ≤ norm v := Real.sqrt_nonneg _

theorem norm_mul_self (v : Vector3) : norm v * norm v = dot v v := by
  rw [norm_eq_sqrt_dot]; exact Real.mul_self_sqrt (dot_self_nonneg v)

theorem norm_eq_one (v : Vector3) (h : dot v v = 1) : norm v = 1 := by
  rw [norm_eq_sqrt_dot, h, Real.sqrt_one]

theorem epsilon_lt_norm (v : Vector3) (h : ¬ v.isZero) :
    Utils.epsilon < norm v := by
  simp only [isZero, Utils.isZero, not_and_or, not_le] at h
  have hd : Utils.epsilon * Utils.epsilon < dot v v := by
    simp only [dot]
    have he : (0:ℝ) < Utils.epsilon := by norm_num [Utils.epsilon]
    rcases h with h | h | h
    · nlinarith [abs_nonneg v.x, sq_abs v.x, sq_nonneg v.y, sq_nonneg v.z]
    · nlinarith [abs_nonneg v.y, sq_abs v.y, sq_nonneg v.x, sq_nonneg v.z]
    · nlinarith [abs_nonneg v.z, sq_abs v.z, sq_nonneg v.x, sq_nonneg v.y]
  have he : (0:ℝ) ≤ Utils.epsilon := by norm_num [Utils.epsilon]
  have := Real.sqrt_lt_sqrt (mul_self_nonneg _) hd
  rwa [Real.sqrt_mul_self he] at this

theorem norm_pos (v : Vector3) (h : ¬ v.isZero) : 0 < norm v := by
  have := epsilon_lt_norm v h
  have he : (0:ℝ) < Utils.epsilon := by norm_num [Utils.epsilon]
  linarith

theorem not_isZero_of_dot_one (v : Vector3) (h : dot v v = 1) : ¬ v.isZero := by
  intro hz
  obtain ⟨hx, hy, hz'⟩ := hz
  simp only [Utils.isZero, Utils.epsilon] at hx hy hz'
  have h1 := abs_le.mp hx
  have h2 := abs_le.mp hy
  have h3 := abs_le.mp hz'
  simp only [dot] at h
  nlinarith

theorem normalize_of_not_isZero (v : Vector3) (h : ¬ v.isZero) :
    v.normalize = ⟨v.x / norm v, v.y / norm v, v.z / norm v⟩ := by
  rw [normalize, if_neg h]

theorem dot_normalize_self (v : Vector3) (h : ¬ v.isZero) :
    dot v.normalize v.normalize = 1 := by
  rw [normalize_of_not_isZero v h]
  have hp : 0 < norm v := norm_pos v h
  have hm := norm_mul_self v
  simp only [dot] at hm ⊢
  field_simp
  linarith

theorem dot_normalize_left (v w : Vector3) (h : ¬ v.isZero) :
    dot v.normalize w = dot v w / norm v := by
  rw [normalize_of_not_isZero v h]
  simp only [dot]; ring

theorem rao_of_not_isZero (v ax : Vector3) (θ : ℝ) (h : ¬ v.isZero) :
    rotateAboutOrthogonal v ax θ =
      increasedBy (times v (Real.cos θ)) (times (cross ax v) (Real.sin θ)) := by
  rw [rotateAboutOrthogonal, if_neg h]

theorem rao_dot_self (v ax : Vector3) (θ : ℝ)
    (hax : dot ax ax = 1) (hperp : dot ax v = 0) :
    dot (rotateAboutOrthogonal v ax θ) (rotateAboutOrthogonal v ax θ) =
      dot v v := by
  by_cases h : v.isZero
  · rw [rotateAboutOrthogonal, if_pos h]
  · rw [rao_of_not_isZero v ax θ h]
    have pyth := Real.sin_sq_add_cos_sq θ
    simp only [dot] at hax hperp
    simp only [dot, cross, times, increasedBy]
    linear_combination
      (v.x * v.x + v.y * v.y + v.z * v.z) * pyth +
      (Real.sin θ) ^ 2 * (v.x * v.x + v.y * v.y + v.z * v.z) * hax -
      (Real.sin θ) ^ 2 * (ax.x * v.x + ax.y * v.y + ax.z * v.z) * hperp

theorem aPar_eq (a b : Vector3) (hb : dot b b = 1) :
    aPar a b = times b (dot a b) := by
  rw [aPar, hb, div_one]

theorem aPar_of_perp (a b : Vector3) (hperp : dot a b = 0) :
    aPar a b = ⟨0, 0, 0⟩ := by
  rw [aPar, hperp, zero_div]
  ext <;> simp [times]

theorem aOrth_of_perp (a b : Vector3) (hperp : dot a b = 0) :
    aOrth a b = a := by
  rw [aOrth, aPar_of_perp a b hperp]
  ext <;> simp [times, increasedBy]

theorem aOrth_add_aPar (a b : Vector3) :
    increasedBy (aOrth a b) (aPar a b) = a := by
  simp only [aOrth, aPar, increasedBy, times]
  ext <;> ring

theorem dot_b_aOrth (a b : Vector3) (hb : dot b b = 1) :
    dot b (aOrth a b) = 0 := by
  rw [aOrth, aPar_eq a b hb]
  simp only [dot] at hb
  simp only [dot, increasedBy, times]
  linear_combination (-(a.x * b.x + a.y * b.y + a.z * b.z)) * hb

theorem dot_w_w (a b : Vector3) (hb : dot b b = 1) :
    dot (wVec a b) (wVec a b) = dot (aOrth a b) (aOrth a b) := by
  rw [wVec, lagrange, hb, dot_b_aOrth a b hb]
  ring

theorem norm_w_eq (a b : Vector3) (hb : dot b b = 1) :
    norm (wVec a b) = norm (aOrth a b) := by
  rw [norm_eq_sqrt_dot, norm_eq_sqrt_dot, dot_w_w a b hb]

theorem rotateAbout_eq (a b : Vector3) (θ : ℝ) (hb : dot b b = 1)
    (hg : ¬ norm (aOrth a b) < Utils.epsilon) :
    rotateAbout a b θ =
      increasedBy
        (increasedBy (times (aOrth a b) (Real.cos θ))
          (times (wVec a b) (Real.sin θ)))
        (aPar a b) := by
  rw [rotateAbout, if_neg hg, norm_w_eq a b hb]
  have hn : norm (aOrth a b) ≠ 0 := by
    push_neg at hg
    have he : (0:ℝ) < Utils.epsilon := by norm_num [Utils.epsilon]
    intro h0; rw [h0] at hg; linarith
  simp only [times, increasedBy]
  ext <;> field_simp

theorem rotateAbout_dot_self (a b : Vector3) (θ : ℝ) (hb : dot b b = 1) :
    dot (rotateAbout a b θ) (rotateAbout a b θ) = dot a a := by
  by_cases hg : norm (aOrth a b) < Utils.epsilon
  · rw [rotateAbout, if_pos hg]
  · rw [rotateAbout_eq a b θ hb hg]
    have pyth := Real.sin_sq_add_cos_sq θ
    have f1 : dot (aOrth a b) (wVec a b) = 0 := by
      rw [wVec, dot_comm]; exact dot_cross_snd b (aOrth a b)
    have f2 : dot (wVec a b) (wVec a b) = dot (aOrth a b) (aOrth a b) :=
      dot_w_w a b hb
    have f3 : dot (aOrth a b) (aPar a b) = 0 := by
      rw [aPar_eq a b hb, dot_times_right, dot_comm (aOrth a b) b,
        dot_b_aOrth a b hb, mul_zero]
    have f4 : dot (wVec a b) (aPar a b) = 0 := by
      rw [aPar_eq a b hb, dot_times_right, wVec, dot_cross_fst, mul_zero]
    have f5 : dot (aPar a b) (aPar a b) = dot a b * dot a b := by
      rw [aPar_eq a b hb, dot_times_left, dot_times_right, hb]; ring
    have f6 : dot a a =
        dot (aOrth a b) (aOrth a b) + dot a b * dot a b := by
      conv_lhs => rw [← aOrth_add_aPar a b]
      rw [dot_increasedBy_left, dot_increasedBy_right, dot_increasedBy_right,
        f3, f5]
      have f3' : dot (aPar a b) (aOrth a b) = 0 := by
        rw [dot_comm]; exact f3
      rw [f3']; ring
    simp only [dot_increasedBy_left, dot_increasedBy_right, dot_times_left,
      dot_times_right]
    have f1' : dot (wVec a b) (aOrth a b) = 0 := by rw [dot_comm]; exact f1
    have f3' : dot (aPar a b) (aOrth a b) = 0 := by rw [dot_comm]; exact f3
    have f4' : dot (aPar a b) (wVec a b) = 0 := by rw [dot_comm]; exact f4
    rw [f1, f1', f2, f3, f3', f4, f4', f5, f6]
    linear_combination dot (aOrth a b) (aOrth a b) * pyth

end Vector3

namespace NA3DCamera

theorem strongInv_right_dot (c : NA3DCamera) (h : StrongInv c) :
    Vector3.dot c.right c.right = 1 ∧ Vector3.dot c.right c.look = 0 ∧
      Vector3.dot c.right c.pedestal = 0 := by
  obtain ⟨hl, hp, hnz, hr, hu⟩ := h
  refine ⟨?_, ?_, ?_⟩
  · rw [hr]; exact Vector3.dot_normalize_self _ hnz
  · rw [hr, Vector3.dot_normalize_left _ _ hnz, Vector3.dot_cross_fst,
      zero_div]
  · rw [hr, Vector3.dot_normalize_left _ _ hnz, Vector3.dot_cross_snd,
      zero_div]

theorem strongInv_frameConc (c : NA3DCamera) (h : StrongInv c) :
    FrameConc c := by
  obtain ⟨hrr, hrl, hrp⟩ := strongInv_right_dot c h
  obtain ⟨hl, hp, hnz, hr, hu⟩ := h
  have hupup : Vector3.dot c.up c.up = 1 := by
    rw [hu, Vector3.lagrange, hrr, hl, hrl]; ring
  refine ⟨Vector3.norm_eq_one _ hl, Vector3.norm_eq_one _ hrr,
    Vector3.norm_eq_one _ hupup, ?_, ?_, ?_, hr, hu⟩
  · rw [Vector3.dot_comm]; exact hrl
  · rw [hu, Vector3.dot_comm]; exact Vector3.dot_cross_snd c.right c.look
  · rw [hu, Vector3.dot_comm]; exact Vector3.dot_cross_fst c.right c.look

theorem setLook_strongInv (v : Vector3) (c : NA3DCamera) (h : StrongInv c)
    (hok : slOK v c) : StrongInv (setLook v c) := by
  obtain ⟨h1, h2⟩ := hok
  obtain ⟨hl, hp, hnz, hr, hu⟩ := h
  simp only [setLook, updateUp, updateRight, updateAngles, StrongInv]
  exact ⟨Vector3.dot_normalize_self _ h1, hp, h2, trivial, trivial⟩

theorem actuallyRotateLeft_strongInv (r : ℝ) (c : NA3DCamera)
    (h : StrongInv c) (hok : rlOK r c) :
    StrongInv (actuallyRotateLeft r c) := by
  by_cases hz : Utils.isZero r
  · rw [actuallyRotateLeft, if_pos hz]; exact h
  · rcases hok with hok | hok
    · exact absurd hok hz
    · obtain ⟨hl, hp, hnz, hr, hu⟩ := h
      simp only [actuallyRotateLeft, if_neg hz, updateUp, updateRight,
        StrongInv]
      refine ⟨?_, hp, hok, trivial, trivial⟩
      rw [Vector3.rotateAbout_dot_self c.look c.pedestal r hp]; exact hl

theorem actuallyRotateUp_strongInv (r : ℝ) (c : NA3DCamera)
    (h : StrongInv c) (hok : ruOK r c) :
    StrongInv (actuallyRotateUp r c) := by
  by_cases hz : Utils.isZero r
  · rw [actuallyRotateUp, if_pos hz]; exact h
  · rcases hok with hok | ⟨hnz', hr'⟩
    · exact absurd hok hz
    · obtain ⟨hrr, hrl, hrp⟩ := strongInv_right_dot c h
      obtain ⟨hl, hp, hnz, hr, hu⟩ := h
      rw [actuallyRotateUp, if_neg hz]
      split_ifs with h1 h2
      · rw [upApplied, if_pos h1] at hnz' hr'
        simp only [updateUp, StrongInv]
        refine ⟨?_, hp, hnz', hr'.symm, trivial⟩
        rw [Vector3.rao_dot_self c.look c.right _ hrr hrl]; exact hl
      · rw [upApplied, if_neg h1, if_pos h2] at hnz' hr'
        simp only [updateUp, StrongInv]
        refine ⟨?_, hp, hnz', hr'.symm, trivial⟩
        rw [Vector3.rao_dot_self c.look c.right _ hrr hrl]; exact hl
      · rw [upApplied, if_neg h1, if_neg h2] at hnz' hr'
        simp only [updateUp, StrongInv]
        refine ⟨?_, hp, hnz', hr'.symm, trivial⟩
        rw [Vector3.rao_dot_self c.look c.right _ hrr hrl]; exact hl

theorem actuallyInclineRight_strongInv (r : ℝ) (c : NA3DCamera)
    (h : StrongInv c) (hok : irOK r c) :
    StrongInv (actuallyInclineRight r c) := by
  by_cases hz : |r| < Utils.epsilon
  · rw [actuallyInclineRight, if_pos hz]; exact h
  · rcases hok with hok | hok
    · exact absurd hok hz
    · obtain ⟨hrr, hrl, hrp⟩ := strongInv_right_dot c h
      obtain ⟨hl, hp, hnz, hr, hu⟩ := h
      have haxax :
          Vector3.dot (Vector3.cross c.pedestal c.right)
            (Vector3.cross c.pedestal c.right) = 1 := by
        rw [Vector3.lagrange, hp, hrr,
          Vector3.dot_comm c.pedestal c.right, hrp]
        ring
      simp only [actuallyInclineRight, if_neg hz, updateUp, updateRight,
        StrongInv]
      refine ⟨?_, ?_, hok, trivial, trivial⟩
      · rw [Vector3.rotateAbout_dot_self c.look _ r haxax]; exact hl
      · rw [Vector3.rao_dot_self c.pedestal _ r haxax
          (Vector3.dot_cross_fst c.pedestal c.right)]
        exact hp

theorem actuallyInclineForward_strongInv (r : ℝ) (c : NA3DCamera)
    (h : StrongInv c) (hok : ifOK r c) :
    StrongInv (actuallyInclineForward r c) := by
  by_cases hz : |r| < Utils.epsilon
  · rw [actuallyInclineForward, if_pos hz]; exact h
  · rcases hok with hok | ⟨hnz', hr'⟩
    · exact absurd hok hz
    · obtain ⟨hrr, hrl, hrp⟩ := strongInv_right_dot c h
      obtain ⟨hl, hp, hnz, hr, hu⟩ := h
      simp only [actuallyInclineForward, if_neg hz, updateUp, StrongInv]
      refine ⟨?_, ?_, hnz', hr'.symm, trivial⟩
      · rw [Vector3.rao_dot_self c.look c.right r hrr hrl]; exact hl
      · rw [Vector3.rotateAbout_dot_self c.pedestal c.right r hrr]; exact hp

theorem update_strongInv (c : NA3DCamera) (h : StrongInv c)
    (hadm : Mut.admissible Mut.update c) : StrongInv (update c) := by
  obtain ⟨a1, a2, a3, a4⟩ := hadm
  have h1 : StrongInv (stepX c) := actuallyRotateLeft_strongInv _ _ h a1
  have h2 : StrongInv (stepY (stepX c)) :=
    actuallyRotateUp_strongInv _ _ h1 a2
  have h3 : StrongInv (stepR (stepY (stepX c))) :=
    actuallyInclineRight_strongInv _ _ h2 a3
  have h4 : StrongInv (stepF (stepR (stepY (stepX c)))) :=
    actuallyInclineForward_strongInv _ _ h3 a4
  simpa [update, StrongInv] using h4

theorem rotateLeft_strongInv (r : ℝ) (c : NA3DCamera) (h : StrongInv c) :
    StrongInv (rotateLeft r c) := by
  simpa [StrongInv, rotateLeft] using h

theorem rotateUp_strongInv (r : ℝ) (c : NA3DCamera) (h : StrongInv c) :
    StrongInv (rotateUp r c) := by
  simpa [StrongInv, rotateUp] using h

theorem inclineRight_strongInv (r : ℝ) (c : NA3DCamera) (h : StrongInv c) :
    StrongInv (inclineRight r c) := by
  simpa [StrongInv, inclineRight] using h

theorem inclineForward_strongInv (r : ℝ) (c : NA3DCamera) (h : StrongInv c) :
    StrongInv (inclineForward r c) := by
  simpa [StrongInv, inclineForward] using h

theorem setLookSmooth_strongInv (v : Vector3) (c : NA3DCamera)
    (h : StrongInv c) : StrongInv (setLookSmooth v c) := by
  simpa [StrongInv, setLookSmooth] using h

theorem lookAtSmooth_strongInv (p : Vector3) (c : NA3DCamera)
    (h : StrongInv c) : StrongInv (lookAtSmooth p c) := by
  simpa [StrongInv, lookAtSmooth, setLookSmooth] using h

theorem setPosition_strongInv (p : Vector3) (c : NA3DCamera)
    (h : StrongInv c) : StrongInv (setPosition p c) := by
  simpa [StrongInv, setPosition] using h

theorem setPositionSmooth_strongInv (p : Vector3) (c : NA3DCamera)
    (h : StrongInv c) : StrongInv (setPositionSmooth p c) := by
  simpa [StrongInv, setPositionSmooth] using h

theorem moveRight_strongInv (a : ℝ) (c : NA3DCamera) (h : StrongInv c) :
    StrongInv (moveRight a c) := by
  simpa [StrongInv, moveRight] using h

theorem moveForward_strongInv (a : ℝ) (c : NA3DCamera) (h : StrongInv c) :
    StrongInv (moveForward a c) := by
  simpa [StrongInv, moveForward] using h

theorem moveUp_strongInv (a : ℝ) (c : NA3DCamera) (h : StrongInv c) :
    StrongInv (moveUp a c) := by
  simpa [StrongInv, moveUp] using h

theorem setSmoothness_strongInv (l p : ℝ) (c : NA3DCamera)
    (h : StrongInv c) : StrongInv (setSmoothness l p c) := by
  simpa [StrongInv, setSmoothness] using h

end NA3DCamera

theorem mut_apply_strongInv (c : NA3DCamera) (m : Mut)
    (hInv : NA3DCamera.StrongInv c) (hAdm : Mut.admissible m c) :
    NA3DCamera.StrongInv (Mut.apply m c) := by
  cases m with
  | setLook v => exact NA3DCamera.setLook_strongInv v c hInv hAdm
  | setLookSmooth v => exact NA3DCamera.setLookSmooth_strongInv v c hInv
  | lookAt p => exact NA3DCamera.setLook_strongInv _ c hInv hAdm
  | lookAtSmooth p => exact NA3DCamera.lookAtSmooth_strongInv p c hInv
  | rotateLeft r => exact NA3DCamera.rotateLeft_strongInv r c hInv
  | rotateUp r => exact NA3DCamera.rotateUp_strongInv r c hInv
  | inclineRight r => exact NA3DCamera.inclineRight_strongInv r c hInv
  | inclineForward r => exact NA3DCamera.inclineForward_strongInv r c hInv
  | update => exact NA3DCamera.update_strongInv c hInv hAdm
  | setPosition p => exact NA3DCamera.setPosition_strongInv p c hInv
  | setPositionSmooth p => exact NA3DCamera.setPositionSmooth_strongInv p c hInv
  | moveRight a => exact NA3DCamera.moveRight_strongInv a c hInv
  | moveForward a => exact NA3DCamera.moveForward_strongInv a c hInv
  | moveUp a => exact NA3DCamera.moveUp_strongInv a c hInv
  | setSmoothness l p => exact NA3DCamera.setSmoothness_strongInv l p c hInv

theorem demoCamera_strongInv : NA3DCamera.StrongInv demoCamera := by
  have hcr : Vector3.cross demoCamera.look demoCamera.pedestal = ⟨1, 0, 0⟩ := by
    simp only [demoCamera, Vector3.cross]
    norm_num
  have hnz : ¬ (Vector3.cross demoCamera.look demoCamera.pedestal).isZero := by
    rw [hcr]
    norm_num [Vector3.isZero, Utils.isZero, Utils.epsilon]
  refine ⟨?_, ?_, hnz, ?_, ?_⟩
  · norm_num [demoCamera, Vector3.dot]
  · norm_num [demoCamera, Vector3.dot]
  · rw [hcr, Vector3.normalize,
      if_neg (by norm_num [Vector3.isZero, Utils.isZero, Utils.epsilon])]
    norm_num [demoCamera, Vector3.norm, Real.sqrt_one]
  · simp only [demoCamera, Vector3.cross]
    norm_num

theorem demoCamera_stepX : NA3DCamera.stepX demoCamera = demoCamera := by
  rw [NA3DCamera.stepX, NA3DCamera.setXangle, NA3DCamera.actuallyRotateLeft,
    if_pos (by norm_num [demoCamera, Utils.lerp, Utils.isZero, Utils.epsilon])]

theorem demoCamera_stepY : NA3DCamera.stepY demoCamera = demoCamera := by
  rw [NA3DCamera.stepY, NA3DCamera.setYangle, NA3DCamera.actuallyRotateUp,
    if_pos (by norm_num [demoCamera, Utils.lerp, Utils.isZero, Utils.epsilon])]

theorem demoCamera_stepR : NA3DCamera.stepR demoCamera = demoCamera := by
  rw [NA3DCamera.stepR, NA3DCamera.setRInclinAng,
    NA3DCamera.actuallyInclineRight,
    if_pos (by norm_num [demoCamera, Utils.lerp, Utils.epsilon])]

theorem demoCamera_update_admissible : Mut.admissible Mut.update demoCamera := by
  refine ⟨Or.inl ?_, ?_, ?_, ?_⟩
  · norm_num [demoCamera, Utils.lerp, Utils.isZero, Utils.epsilon]
  · rw [demoCamera_stepX]
    exact Or.inl (by norm_num [demoCamera, Utils.lerp, Utils.isZero,
      Utils.epsilon])
  · rw [demoCamera_stepX, demoCamera_stepY]
    exact Or.inl (by norm_num [demoCamera, Utils.lerp, Utils.epsilon])
  · rw [demoCamera_stepX, demoCamera_stepY, demoCamera_stepR]
    exact Or.inl (by norm_num [demoCamera, Utils.lerp, Utils.epsilon])

/-- C2 (amended): for every camera state satisfying the internal frame
invariant (unit `look` and `pedestal`, `cross(look, pedestal)` not within
tolerance of zero, `right`/`up` matching their recomputation formulas),
after any public mutator whose degenerate guards do not fire — the new or
rotated look vector stays non-collinear with the pedestal, and for the two
operators that skip `#updateRight` (vertical rotation and forward
inclination) the stale `right` still equals `normalize(cross(look,
pedestal))` — the derived vectors `right`, `up`, `look` are pairwise
orthogonal unit vectors with `right = normalize(cross(look, pedestal))`
and `up = cross(right, look)`. Without the non-collinearity proviso the
invariant fails (see the counterexample: `setLook` along the pedestal
collapses `right` and `up` to zero). -/
theorem frame_invariant_after_mutator (c : NA3DCamera) (m : Mut)
    (hInv : NA3DCamera.StrongInv c) (hAdm : Mut.admissible m c) :
    NA3DCamera.FrameConc (Mut.apply m c) :=
  NA3DCamera.strongInv_frameConc _ (mut_apply_strongInv c m hInv hAdm)

/-- Witness for C2: the invariant conclusion holds after one `update()` tick
of the concrete demo camera. -/
theorem frame_invariant_after_mutator_witness :
    NA3DCamera.FrameConc (Mut.apply Mut.update demoCamera) :=
  frame_invariant_after_mutator demoCamera Mut.update demoCamera_strongInv
    demoCamera_update_admissible

/-- Counterexample for C2 as literally stated: a camera constructed from
unit-length arguments, after the public mutator `setLook` with a direction
collinear with the pedestal, has `right = (0,0,0)`, which is not a unit
vector. -/
theorem frame_invariant_counterexample :
    ¬ ((NA3DCamera.setLook ⟨0, 0, 1⟩
        (NA3DCamera.mk' ⟨0, 0, 0⟩ ⟨0, 0, 1⟩ ⟨0, 1, 0⟩ 0
          (Real.pi / 3))).right.norm = 1) := by
  have hped : (NA3DCamera.mk' ⟨0, 0, 0⟩ ⟨0, 0, 1⟩ ⟨0, 1, 0⟩ 0
      (Real.pi / 3)).pedestal = ⟨0, 0, 1⟩ := by
    show ((NA3DCamera.changeHand ⟨0, 0, 1⟩).normalize) = _
    rw [NA3DCamera.changeHand, Vector3.normalize,
      if_neg (by norm_num [Vector3.isZero, Utils.isZero, Utils.epsilon])]
    norm_num [Vector3.norm, Real.sqrt_one]
  have hlk : ((NA3DCamera.changeHand ⟨0, 0, 1⟩) : Vector3).normalize
      = ⟨0, 0, 1⟩ := by
    rw [NA3DCamera.changeHand, Vector3.normalize,
      if_neg (by norm_num [Vector3.isZero, Utils.isZero, Utils.epsilon])]
    norm_num [Vector3.norm, Real.sqrt_one]
  have hright : (NA3DCamera.setLook ⟨0, 0, 1⟩
      (NA3DCamera.mk' ⟨0, 0, 0⟩ ⟨0, 0, 1⟩ ⟨0, 1, 0⟩ 0
        (Real.pi / 3))).right
      = Vector3.normalize (Vector3.cross ⟨0, 0, 1⟩ ⟨0, 0, 1⟩) := by
    simp only [NA3DCamera.setLook, NA3DCamera.updateUp, NA3DCamera.updateRight,
      NA3DCamera.updateAngles, hlk, hped]
  rw [hright]
  have hc0 : Vector3.cross ⟨0, 0, 1⟩ ⟨0, 0, 1⟩ = ⟨0, 0, 0⟩ := by
    simp only [Vector3.cross]; norm_num
  rw [hc0, Vector3.normalize,
    if_pos (by norm_num [Vector3.isZero, Utils.isZero, Utils.epsilon])]
  norm_num [Vector3.norm, Real.sqrt_zero]

/-- C6: every vector-valued quantity crossing the camera's external boundary
(the position, pedestal and look construction arguments and the
`construct3Position` / `construct3Forward` / `construct3Right` accessors)
has its second component negated by the fixed `#changeHand` transform, the
outward-reported `xAngle` is negated, and `construct3Up` passes the up
vector through with no component negated. -/
theorem boundary_handedness (c : NA3DCamera) (v p pd lk : Vector3)
    (xa mx : ℝ) :
    NA3DCamera.construct3Position c = NA3DCamera.changeHand c.position ∧
    NA3DCamera.construct3Forward c = NA3DCamera.changeHand c.look ∧
    NA3DCamera.construct3Right c = NA3DCamera.changeHand c.right ∧
    NA3DCamera.construct3Up c = c.up ∧
    (NA3DCamera.changeHand v).x = v.x ∧
    (NA3DCamera.changeHand v).y = -(v.y) ∧
    (NA3DCamera.changeHand v).z = v.z ∧
    NA3DCamera.xAngle c = -(c.xAng) ∧
    (NA3DCamera.mk' p pd lk xa mx).position = NA3DCamera.changeHand p ∧
    (NA3DCamera.mk' p pd lk xa mx).pedestal =
      (NA3DCamera.changeHand pd).normalize ∧
    (NA3DCamera.mk' p pd lk xa mx).look =
      (NA3DCamera.changeHand lk).normalize ∧
    (NA3DCamera.mk' p pd lk xa mx).xAng = -xa :=
  ⟨rfl, rfl, rfl, rfl, rfl, rfl, rfl, rfl, rfl, rfl, rfl, rfl⟩

/-- C7: `rayPlaneIntersection` returns the failure sentinel exactly when
the denominator `dot(n, v)` is within epsilon of zero or the solution `t`
of `dot(n, P + tv) + d = 0` is negative; otherwise it returns `P + t·v`,
which indeed solves the plane equation. -/
theorem rayPlaneIntersection_characterization (ray : Ray) (plane : Plane) :
    (rayPlaneIntersection ray plane = none ↔
      Utils.isZero (Vector3.dot plane.n ray.v) ∨
        (¬ Utils.isZero (Vector3.dot plane.n ray.v) ∧
          -(Vector3.dot plane.n ray.P + plane.d) /
            Vector3.dot plane.n ray.v < 0)) ∧
    (¬ Utils.isZero (Vector3.dot plane.n ray.v) →
      0 ≤ -(Vector3.dot plane.n ray.P + plane.d) /
        Vector3.dot plane.n ray.v →
      rayPlaneIntersection ray plane =
        some (Vector3.increasedBy ray.P (Vector3.times ray.v
          (-(Vector3.dot plane.n ray.P + plane.d) /
            Vector3.dot plane.n ray.v))) ∧
      Vector3.dot plane.n
        (Vector3.increasedBy ray.P (Vector3.times ray.v
          (-(Vector3.dot plane.n ray.P + plane.d) /
            Vector3.dot plane.n ray.v))) + plane.d = 0) := by
  constructor
  · by_cases h1 : Utils.isZero (Vector3.dot plane.n ray.v)
    · simp [rayPlaneIntersection, h1]
    · by_cases h2 : -(Vector3.dot plane.n ray.P + plane.d) /
          Vector3.dot plane.n ray.v < 0
      · simp [rayPlaneIntersection, h1, h2]
      · simp [rayPlaneIntersection, h1, h2]
  · intro h1 h2
    have hden : Vector3.dot plane.n ray.v ≠ 0 := by
      intro h0
      apply h1
      rw [h0]
      norm_num [Utils.isZero, Utils.epsilon]
    constructor
    · rw [rayPlaneIntersection]
      simp only [if_neg h1, if_neg (not_lt.mpr h2)]
    · rw [Vector3.dot_increasedBy_right, Vector3.dot_times_right]
      field_simp

/-- Witness for C7: a ray from the origin along `z` against the plane
`z = 1` hits at `(0, 0, 1)`. -/
theorem rayPlaneIntersection_witness :
    rayPlaneIntersection ⟨⟨0, 0, 0⟩, ⟨0, 0, 1⟩⟩ ⟨⟨0, 0, 1⟩, -1⟩ =
      some ⟨0, 0, 1⟩ := by
  have h := (rayPlaneIntersection_characterization
      ⟨⟨0, 0, 0⟩, ⟨0, 0, 1⟩⟩ ⟨⟨0, 0, 1⟩, -1⟩).2
    (by norm_num [Vector3.dot, Utils.isZero, Utils.epsilon])
    (by norm_num [Vector3.dot])
  rw [h.1]
  norm_num [Vector3.dot, Vector3.times, Vector3.increasedBy]

/-- C8: degenerate geometric inputs are no-ops, never errors: `normalize`
on a tolerance-zero vector, `rotateAboutOrthogonal` on a tolerance-zero
receiver, and `rotateAbout` whenever the receiver's orthogonal component
has norm below the shared epsilon, all return the receiver unchanged. -/
theorem degenerate_inputs_are_noops (v ax a b : Vector3) (θ η : ℝ) :
    (v.isZero → v.normalize = v) ∧
    (v.isZero → Vector3.rotateAboutOrthogonal v ax θ = v) ∧
    ((Vector3.aOrth a b).norm < Utils.epsilon →
      Vector3.rotateAbout a b η = a) := by
  refine ⟨fun h => ?_, fun h => ?_, fun h => ?_⟩
  · rw [Vector3.normalize, if_pos h]
  · rw [Vector3.rotateAboutOrthogonal, if_pos h]
  · rw [Vector3.rotateAbout, if_pos h]

/-- Witness for C8: the zero vector and an axis-parallel receiver are left
unchanged by the three operations. -/
theorem degenerate_inputs_are_noops_witness :
    Vector3.normalize ⟨0, 0, 0⟩ = ⟨0, 0, 0⟩ ∧
    Vector3.rotateAboutOrthogonal ⟨0, 0, 0⟩ ⟨1, 0, 0⟩ 2 = ⟨0, 0, 0⟩ ∧
    Vector3.rotateAbout ⟨1, 0, 0⟩ ⟨1, 0, 0⟩ 2 = ⟨1, 0, 0⟩ := by
  obtain ⟨h1, h2, h3⟩ :=
    degenerate_inputs_are_noops ⟨0, 0, 0⟩ ⟨1, 0, 0⟩ ⟨1, 0, 0⟩ ⟨1, 0, 0⟩ 2 2
  refine ⟨h1 ?_, h2 ?_, h3 ?_⟩
  · norm_num [Vector3.isZero, Utils.isZero, Utils.epsilon]
  · norm_num [Vector3.isZero, Utils.isZero, Utils.epsilon]
  · norm_num [Vector3.aOrth, Vector3.aPar, Vector3.dot, Vector3.times,
      Vector3.increasedBy, Vector3.norm, Real.sqrt_zero, Utils.epsilon]

/-- C4: `rotateUp` clamps the elevation target into `[minUpAng, maxUpAng]`
at request time; during `update()` (whose vertical step is
`#setYangle`, i.e. `#actuallyRotateUp` of the interpolated delta), a
non-tolerance-zero delta that would push the tracked elevation angle past
a bound makes only the remainder up to the bound get applied to `look`,
and pins the tracked angle exactly to the bound; an in-range delta is
applied in full. -/
theorem rotateUp_clamping (c : NA3DCamera) (r a : ℝ) :
    (NA3DCamera.rotateUp r c).targetYang =
      Utils.clamp c.minUpAng (c.targetYang + r) c.maxUpAng ∧
    NA3DCamera.setYangle a c = NA3DCamera.actuallyRotateUp (a - c.yAng) c ∧
    (¬ Utils.isZero r → c.maxUpAng < c.yAng + r →
      (NA3DCamera.actuallyRotateUp r c).look =
        Vector3.rotateAboutOrthogonal c.look c.right (c.maxUpAng - c.yAng) ∧
      (NA3DCamera.actuallyRotateUp r c).yAng = c.maxUpAng) ∧
    (¬ Utils.isZero r → ¬ (c.maxUpAng < c.yAng + r) →
      c.yAng + r < c.minUpAng →
      (NA3DCamera.actuallyRotateUp r c).look =
        Vector3.rotateAboutOrthogonal c.look c.right (c.minUpAng - c.yAng) ∧
      (NA3DCamera.actuallyRotateUp r c).yAng = c.minUpAng) ∧
    (¬ Utils.isZero r → ¬ (c.maxUpAng < c.yAng + r) →
      ¬ (c.yAng + r < c.minUpAng) →
      (NA3DCamera.actuallyRotateUp r c).look =
        Vector3.rotateAboutOrthogonal c.look c.right r ∧
      (NA3DCamera.actuallyRotateUp r c).yAng = c.yAng + r) := by
  refine ⟨rfl, rfl, ?_, ?_, ?_⟩
  · intro h1 h2
    rw [NA3DCamera.actuallyRotateUp, if_neg h1, if_pos h2]
    exact ⟨rfl, rfl⟩
  · intro h1 h3 h2
    rw [NA3DCamera.actuallyRotateUp, if_neg h1, if_neg h3, if_pos h2]
    exact ⟨rfl, rfl⟩
  · intro h1 h2 h3
    rw [NA3DCamera.actuallyRotateUp, if_neg h1, if_neg h2, if_neg h3]
    exact ⟨rfl, rfl⟩

/-- Witness for C4: on the demo camera a request of `2` radians overshoots
`maxUpAng = 1`, so only the remainder `1 - 0` is applied and the tracked
angle is pinned to the bound; the target is clamped at request time. -/
theorem rotateUp_clamping_witness :
    (NA3DCamera.rotateUp 2 demoCamera).targetYang =
      Utils.clamp demoCamera.minUpAng (demoCamera.targetYang + 2)
        demoCamera.maxUpAng ∧
    (NA3DCamera.actuallyRotateUp 2 demoCamera).look =
      Vector3.rotateAboutOrthogonal demoCamera.look demoCamera.right
        (demoCamera.maxUpAng - demoCamera.yAng) ∧
    (NA3DCamera.actuallyRotateUp 2 demoCamera).yAng =
      demoCamera.maxUpAng := by
  have h := rotateUp_clamping demoCamera 2 0
  have hb := h.2.2.1
    (by norm_num [Utils.isZero, Utils.epsilon])
    (by norm_num [demoCamera])
  exact ⟨h.1, hb.1, hb.2⟩

/-- C5: on a receiver that is not tolerance-zero, with a unit axis
orthogonal to it, the general `rotateAbout` agrees exactly with the
orthogonal-only `rotateAboutOrthogonal` (so in particular within any
tolerance). -/
theorem rotateAbout_reduces_to_orthogonal (a b : Vector3) (θ : ℝ)
    (ha : ¬ a.isZero) (hb : Vector3.dot b b = 1)
    (hperp : Vector3.dot a b = 0) :
    Vector3.rotateAbout a b θ = Vector3.rotateAboutOrthogonal a b θ := by
  have haOrth : Vector3.aOrth a b = a := Vector3.aOrth_of_perp a b hperp
  have hguard : ¬ (Vector3.aOrth a b).norm < Utils.epsilon := by
    rw [haOrth]
    exact not_lt.mpr (le_of_lt (Vector3.epsilon_lt_norm a ha))
  have hn : a.norm ≠ 0 := ne_of_gt (Vector3.norm_pos a ha)
  rw [Vector3.rotateAbout, if_neg hguard,
    Vector3.rotateAboutOrthogonal, if_neg ha]
  rw [Vector3.norm_w_eq a b hb, Vector3.wVec, haOrth,
    Vector3.aPar_of_perp a b hperp]
  ext <;>
    simp only [Vector3.times, Vector3.increasedBy, Vector3.cross] <;>
    field_simp

theorem actuallyRotateLeft_pos (r : ℝ) (c : NA3DCamera) :
    (NA3DCamera.actuallyRotateLeft r c).position = c.position ∧
    (NA3DCamera.actuallyRotateLeft r c).targetPosition = c.targetPosition ∧
    (NA3DCamera.actuallyRotateLeft r c).s = c.s := by
  rw [NA3DCamera.actuallyRotateLeft]
  split_ifs <;> exact ⟨rfl, rfl, rfl⟩

theorem actuallyRotateUp_pos (r : ℝ) (c : NA3DCamera) :
    (NA3DCamera.actuallyRotateUp r c).position = c.position ∧
    (NA3DCamera.actuallyRotateUp r c).targetPosition = c.targetPosition ∧
    (NA3DCamera.actuallyRotateUp r c).s = c.s := by
  rw [NA3DCamera.actuallyRotateUp]
  split_ifs <;> exact ⟨rfl, rfl, rfl⟩

theorem actuallyInclineRight_pos (r : ℝ) (c : NA3DCamera) :
    (NA3DCamera.actuallyInclineRight r c).position = c.position ∧
    (NA3DCamera.actuallyInclineRight r c).targetPosition = c.targetPosition ∧
    (NA3DCamera.actuallyInclineRight r c).s = c.s := by
  rw [NA3DCamera.actuallyInclineRight]
  split_ifs <;> exact ⟨rfl, rfl, rfl⟩

theorem actuallyInclineForward_pos (r : ℝ) (c : NA3DCamera) :
    (NA3DCamera.actuallyInclineForward r c).position = c.position ∧
    (NA3DCamera.actuallyInclineForward r c).targetPosition = c.targetPosition ∧
    (NA3DCamera.actuallyInclineForward r c).s = c.s := by
  rw [NA3DCamera.actuallyInclineForward]
  split_ifs <;> exact ⟨rfl, rfl, rfl⟩

theorem steps_pos (c : NA3DCamera) :
    (NA3DCamera.stepF (NA3DCamera.stepR (NA3DCamera.stepY
        (NA3DCamera.stepX c)))).position = c.position ∧
    (NA3DCamera.stepF (NA3DCamera.stepR (NA3DCamera.stepY
        (NA3DCamera.stepX c)))).targetPosition = c.targetPosition ∧
    (NA3DCamera.stepF (NA3DCamera.stepR (NA3DCamera.stepY
        (NA3DCamera.stepX c)))).s = c.s := by
  obtain ⟨x1, x2, x3⟩ := actuallyRotateLeft_pos
    (Utils.lerp c.xAng c.targetXang c.t - c.xAng) c
  have hX : (NA3DCamera.stepX c).position = c.position ∧
      (NA3DCamera.stepX c).targetPosition = c.targetPosition ∧
      (NA3DCamera.stepX c).s = c.s := ⟨x1, x2, x3⟩
  obtain ⟨y1, y2, y3⟩ := actuallyRotateUp_pos
    (Utils.lerp (NA3DCamera.stepX c).yAng (NA3DCamera.stepX c).targetYang
      (NA3DCamera.stepX c).t - (NA3DCamera.stepX c).yAng) (NA3DCamera.stepX c)
  have hY : (NA3DCamera.stepY (NA3DCamera.stepX c)).position = c.position ∧
      (NA3DCamera.stepY (NA3DCamera.stepX c)).targetPosition =
        c.targetPosition ∧
      (NA3DCamera.stepY (NA3DCamera.stepX c)).s = c.s := by
    refine ⟨?_, ?_, ?_⟩
    · exact y1.trans hX.1
    · exact y2.trans hX.2.1
    · exact y3.trans hX.2.2
  obtain ⟨r1, r2, r3⟩ := actuallyInclineRight_pos
    (Utils.lerp (NA3DCamera.stepY (NA3DCamera.stepX c)).rInclinAng
      (NA3DCamera.stepY (NA3DCamera.stepX c)).targetRInclinAng
      (NA3DCamera.stepY (NA3DCamera.stepX c)).t -
      (NA3DCamera.stepY (NA3DCamera.stepX c)).rInclinAng)
    (NA3DCamera.stepY (NA3DCamera.stepX c))
  have hR : (NA3DCamera.stepR (NA3DCamera.stepY (NA3DCamera.stepX c))).position
        = c.position ∧
      (NA3DCamera.stepR (NA3DCamera.stepY
        (NA3DCamera.stepX c))).targetPosition = c.targetPosition ∧
      (NA3DCamera.stepR (NA3DCamera.stepY (NA3DCamera.stepX c))).s = c.s := by
    refine ⟨r1.trans hY.1, r2.trans hY.2.1, r3.trans hY.2.2⟩
  obtain ⟨f1, f2, f3⟩ := actuallyInclineForward_pos
    (Utils.lerp
      (NA3DCamera.stepR (NA3DCamera.stepY (NA3DCamera.stepX c))).fInclinAng
      (NA3DCamera.stepR (NA3DCamera.stepY
        (NA3DCamera.stepX c))).targetFInclinAng
      (NA3DCamera.stepR (NA3DCamera.stepY (NA3DCamera.stepX c))).t -
      (NA3DCamera.stepR (NA3DCamera.stepY (NA3DCamera.stepX c))).fInclinAng)
    (NA3DCamera.stepR (NA3DCamera.stepY (NA3DCamera.stepX c)))
  exact ⟨f1.trans hR.1, f2.trans hR.2.1, f3.trans hR.2.2⟩

theorem update_position (c : NA3DCamera) :
    (NA3DCamera.update c).position =
      Vector3.lerp c.position c.targetPosition c.s := by
  obtain ⟨h1, h2, h3⟩ := steps_pos c
  show Vector3.lerp
    (NA3DCamera.stepF (NA3DCamera.stepR (NA3DCamera.stepY
      (NA3DCamera.stepX c)))).position
    (NA3DCamera.stepF (NA3DCamera.stepR (NA3DCamera.stepY
      (NA3DCamera.stepX c)))).targetPosition
    (NA3DCamera.stepF (NA3DCamera.stepR (NA3DCamera.stepY
      (NA3DCamera.stepX c)))).s = _
  rw [h1, h2, h3]

/-- C10: `moveRight` / `moveForward` / `moveUp` add the scaled basis vector
to the current position but leave `targetPosition` unchanged, while
`setPosition` resets both; consequently an `update()` after `moveRight`
lerps the position back toward the pre-move target, and when the camera
had already converged (`position = targetPosition`) the surviving offset
is exactly `(1 - s)` times the translation: the move is partially undone
for any position coefficient `s > 0`. -/
theorem move_leaves_target_position (c : NA3DCamera) (amt : ℝ) (p : Vector3) :
    (NA3DCamera.moveRight amt c).position =
      Vector3.increasedBy c.position (Vector3.times c.right amt) ∧
    (NA3DCamera.moveRight amt c).targetPosition = c.targetPosition ∧
    (NA3DCamera.moveForward amt c).position =
      Vector3.increasedBy c.position (Vector3.times c.look amt) ∧
    (NA3DCamera.moveForward amt c).targetPosition = c.targetPosition ∧
    (NA3DCamera.moveUp amt c).position =
      Vector3.increasedBy c.position (Vector3.times c.up amt) ∧
    (NA3DCamera.moveUp amt c).targetPosition = c.targetPosition ∧
    (NA3DCamera.setPosition p c).position = NA3DCamera.changeHand p ∧
    (NA3DCamera.setPosition p c).targetPosition = NA3DCamera.changeHand p ∧
    (NA3DCamera.update (NA3DCamera.moveRight amt c)).position =
      Vector3.lerp
        (Vector3.increasedBy c.position (Vector3.times c.right amt))
        c.targetPosition c.s ∧
    (c.position = c.targetPosition →
      (NA3DCamera.update (NA3DCamera.moveRight amt c)).position =
        Vector3.increasedBy c.position
          (Vector3.times c.right (amt * (1 - c.s)))) := by
  have hupd := update_position (NA3DCamera.moveRight amt c)
  have hmr : (NA3DCamera.moveRight amt c).position =
      Vector3.increasedBy c.position (Vector3.times c.right amt) := rfl
  have hmt : (NA3DCamera.moveRight amt c).targetPosition =
      c.targetPosition := rfl
  have hms : (NA3DCamera.moveRight amt c).s = c.s := rfl
  rw [hmr, hmt, hms] at hupd
  refine ⟨rfl, rfl, rfl, rfl, rfl, rfl, rfl, rfl, hupd, ?_⟩
  intro hconv
  rw [hupd, ← hconv]
  ext <;>
    simp only [Vector3.lerp, Utils.lerp, Vector3.times,
      Vector3.increasedBy] <;>
    ring

/-- Witness for C10: on the converged demo camera (position coefficient
`s = 1`), a `moveRight` followed by one `update()` is fully undone. -/
theorem move_leaves_target_position_witness :
    (NA3DCamera.update (NA3DCamera.moveRight 2 demoCamera)).position =
      Vector3.increasedBy demoCamera.position
        (Vector3.times demoCamera.right (2 * (1 - demoCamera.s))) :=
  (move_leaves_target_position demoCamera 2 ⟨0, 0, 0⟩).2.2.2.2.2.2.2.2.2 rfl

/-- C1 (amended): when `update()` applies a horizontal angle delta (its
horizontal step is `#setXangle`, i.e. `#actuallyRotateLeft` of the
interpolated delta), the look vector is rotated about the pedestal axis by
the delta with no sign inversion: the delta is passed to `rotateAbout`
unchanged, which is a positive rotation about the pedestal under the
right-hand rule, and a positive delta moves the view toward the negation
of the right basis vector (strictly away from `right`). -/
theorem horizontal_rotation_sign (c : NA3DCamera) (r : ℝ)
    (hl : Vector3.dot c.look c.look = 1)
    (hp : Vector3.dot c.pedestal c.pedestal = 1)
    (hperp : Vector3.dot c.look c.pedestal = 0)
    (hz : ¬ Utils.isZero r) (h0 : 0 < r) (hpi : r < Real.pi) :
    (NA3DCamera.actuallyRotateLeft r c).look =
      Vector3.rotateAbout c.look c.pedestal r ∧
    (∀ a, NA3DCamera.setXangle a c =
      NA3DCamera.actuallyRotateLeft (a - c.xAng) c) ∧
    Vector3.dot (NA3DCamera.actuallyRotateLeft r c).look
      ((Vector3.cross c.look c.pedestal).normalize) < 0 := by
  have hlook : (NA3DCamera.actuallyRotateLeft r c).look =
      Vector3.rotateAbout c.look c.pedestal r := by
    rw [NA3DCamera.actuallyRotateLeft, if_neg hz]
    rfl
  refine ⟨hlook, fun a => rfl, ?_⟩
  have hXX : Vector3.dot (Vector3.cross c.look c.pedestal)
      (Vector3.cross c.look c.pedestal) = 1 := by
    rw [Vector3.lagrange, hl, hp, hperp]; ring
  have hnzX := Vector3.not_isZero_of_dot_one _ hXX
  have hnX : (Vector3.cross c.look c.pedestal).norm = 1 :=
    Vector3.norm_eq_one _ hXX
  have haOrth : Vector3.aOrth c.look c.pedestal = c.look :=
    Vector3.aOrth_of_perp _ _ hperp
  have hguard : ¬ (Vector3.aOrth c.look c.pedestal).norm < Utils.epsilon := by
    rw [haOrth, Vector3.norm_eq_one _ hl]
    norm_num [Utils.epsilon]
  have hRA := Vector3.rotateAbout_eq c.look c.pedestal r hp hguard
  rw [hlook, hRA, haOrth, Vector3.wVec, haOrth,
    Vector3.aPar_of_perp _ _ hperp]
  rw [Vector3.dot_increasedBy_left, Vector3.dot_increasedBy_left,
    Vector3.dot_times_left, Vector3.dot_times_left]
  have e1 : Vector3.dot c.look
      ((Vector3.cross c.look c.pedestal).normalize) = 0 := by
    rw [Vector3.dot_comm, Vector3.dot_normalize_left _ _ hnzX,
      Vector3.dot_cross_fst, zero_div]
  have e2 : Vector3.dot (Vector3.cross c.pedestal c.look)
      ((Vector3.cross c.look c.pedestal).normalize) = -1 := by
    rw [Vector3.dot_comm, Vector3.dot_normalize_left _ _ hnzX,
      Vector3.dot_cross_swap, hl, hp, hperp, hnX]
    norm_num
  have e3 : Vector3.dot (⟨0, 0, 0⟩ : Vector3)
      ((Vector3.cross c.look c.pedestal).normalize) = 0 := by
    simp [Vector3.dot]
  rw [e1, e2, e3]
  have hs := Real.sin_pos_of_pos_of_lt_pi h0 hpi
  nlinarith

/-- Witness for C1: the demo camera rotated by `π/2`. -/
theorem horizontal_rotation_sign_witness :
    (NA3DCamera.actuallyRotateLeft (Real.pi / 2) demoCamera).look =
      Vector3.rotateAbout demoCamera.look demoCamera.pedestal
        (Real.pi / 2) ∧
    (∀ a, NA3DCamera.setXangle a demoCamera =
      NA3DCamera.actuallyRotateLeft (a - demoCamera.xAng) demoCamera) ∧
    Vector3.dot (NA3DCamera.actuallyRotateLeft (Real.pi / 2) demoCamera).look
      ((Vector3.cross demoCamera.look demoCamera.pedestal).normalize) < 0 :=
  horizontal_rotation_sign demoCamera (Real.pi / 2)
    (by norm_num [demoCamera, Vector3.dot])
    (by norm_num [demoCamera, Vector3.dot])
    (by norm_num [demoCamera, Vector3.dot])
    (by
      have h3 := Real.pi_gt_three
      show ¬ (|Real.pi / 2| ≤ Utils.epsilon)
      rw [abs_of_pos (by linarith)]
      norm_num [Utils.epsilon]
      linarith)
    (by positivity)
    (by linarith [Real.pi_pos])

/-- Counterexample for C1 as literally stated: on the demo camera
(`look = (0,1,0)`, `pedestal = (0,0,1)`, `right = (1,0,0)`), a positive
delta of `π/2` sends `look` to `(-1,0,0)` — the negation of the right
vector — while the sign-inverted rotation the claim describes would give
`(1,0,0)`; no sign inversion happens in the code. -/
theorem horizontal_rotation_sign_counterexample :
    (NA3DCamera.actuallyRotateLeft (Real.pi / 2) demoCamera).look =
      ⟨-1, 0, 0⟩ ∧
    Vector3.rotateAbout demoCamera.look demoCamera.pedestal
      (-(Real.pi / 2)) = ⟨1, 0, 0⟩ ∧
    ((⟨-1, 0, 0⟩ : Vector3) ≠ (⟨1, 0, 0⟩ : Vector3)) := by
  have hperp : Vector3.dot demoCamera.look demoCamera.pedestal = 0 := by
    norm_num [demoCamera, Vector3.dot]
  have haOrth : Vector3.aOrth demoCamera.look demoCamera.pedestal =
      demoCamera.look := Vector3.aOrth_of_perp _ _ hperp
  have hnl : demoCamera.look.norm = 1 := by
    rw [Vector3.norm_eq_one]
    norm_num [demoCamera, Vector3.dot]
  have hguard :
      ¬ (Vector3.aOrth demoCamera.look demoCamera.pedestal).norm <
        Utils.epsilon := by
    rw [haOrth, hnl]
    norm_num [Utils.epsilon]
  have hw : Vector3.wVec demoCamera.look demoCamera.pedestal =
      ⟨-1, 0, 0⟩ := by
    rw [Vector3.wVec, haOrth]
    simp only [demoCamera, Vector3.cross]
    norm_num
  have hnw : ((⟨-1, 0, 0⟩ : Vector3)).norm = 1 :=
    Vector3.norm_eq_one _ (by norm_num [Vector3.dot])
  have hpz : Vector3.aPar demoCamera.look demoCamera.pedestal =
      ⟨0, 0, 0⟩ := Vector3.aPar_of_perp _ _ hperp
  have hiz : ¬ Utils.isZero (Real.pi / 2) := by
    have h3 := Real.pi_gt_three
    show ¬ (|Real.pi / 2| ≤ Utils.epsilon)
    rw [abs_of_pos (by linarith)]
    norm_num [Utils.epsilon]
    linarith
  refine ⟨?_, ?_, ?_⟩
  · rw [NA3DCamera.actuallyRotateLeft, if_neg hiz]
    show Vector3.rotateAbout demoCamera.look demoCamera.pedestal
      (Real.pi / 2) = _
    rw [Vector3.rotateAbout, if_neg hguard]
    rw [haOrth, hpz, hw, hnl, hnw]
    simp only [Real.cos_pi_div_two, Real.sin_pi_div_two]
    ext <;>
      simp [demoCamera, Vector3.times, Vector3.increasedBy]
  · rw [Vector3.rotateAbout, if_neg hguard]
    rw [haOrth, hpz, hw, hnl, hnw]
    simp only [Real.cos_neg, Real.sin_neg, Real.cos_pi_div_two,
      Real.sin_pi_div_two]
    ext <;>
      simp [demoCamera, Vector3.times, Vector3.increasedBy]
  · intro h
    have := congrArg Vector3.x h
    norm_num at this

theorem lerp_one (a b : ℝ) : Utils.lerp a b 1 = b := by
  rw [Utils.lerp]; ring

theorem vlerp_one (p q : Vector3) : Vector3.lerp p q 1 = q := by
  ext <;> simp [Vector3.lerp, Utils.lerp]

theorem clamp_bounds (low x high : ℝ) (h : low ≤ high) :
    low ≤ Utils.clamp low x high ∧ Utils.clamp low x high ≤ high := by
  rw [Utils.clamp]
  split_ifs with h1 h2 <;> constructor <;> linarith

theorem actuallyRotateLeft_angles (r : ℝ) (c : NA3DCamera)
    (hz : ¬ Utils.isZero r) :
    (NA3DCamera.actuallyRotateLeft r c).xAng = c.xAng + r ∧
    (NA3DCamera.actuallyRotateLeft r c).yAng = c.yAng ∧
    (NA3DCamera.actuallyRotateLeft r c).rInclinAng = c.rInclinAng ∧
    (NA3DCamera.actuallyRotateLeft r c).fInclinAng = c.fInclinAng ∧
    (NA3DCamera.actuallyRotateLeft r c).targetXang = c.targetXang ∧
    (NA3DCamera.actuallyRotateLeft r c).targetYang = c.targetYang ∧
    (NA3DCamera.actuallyRotateLeft r c).targetRInclinAng =
      c.targetRInclinAng ∧
    (NA3DCamera.actuallyRotateLeft r c).targetFInclinAng =
      c.targetFInclinAng ∧
    (NA3DCamera.actuallyRotateLeft r c).t = c.t ∧
    (NA3DCamera.actuallyRotateLeft r c).maxUpAng = c.maxUpAng ∧
    (NA3DCamera.actuallyRotateLeft r c).minUpAng = c.minUpAng := by
  rw [NA3DCamera.actuallyRotateLeft, if_neg hz]
  exact ⟨rfl, rfl, rfl, rfl, rfl, rfl, rfl, rfl, rfl, rfl, rfl⟩

theorem actuallyRotateUp_angles (r : ℝ) (c : NA3DCamera)
    (hz : ¬ Utils.isZero r) (h1 : ¬ (c.maxUpAng < c.yAng + r))
    (h2 : ¬ (c.yAng + r < c.minUpAng)) :
    (NA3DCamera.actuallyRotateUp r c).yAng = c.yAng + r ∧
    (NA3DCamera.actuallyRotateUp r c).xAng = c.xAng ∧
    (NA3DCamera.actuallyRotateUp r c).rInclinAng = c.rInclinAng ∧
    (NA3DCamera.actuallyRotateUp r c).fInclinAng = c.fInclinAng ∧
    (NA3DCamera.actuallyRotateUp r c).targetXang = c.targetXang ∧
    (NA3DCamera.actuallyRotateUp r c).targetYang = c.targetYang ∧
    (NA3DCamera.actuallyRotateUp r c).targetRInclinAng =
      c.targetRInclinAng ∧
    (NA3DCamera.actuallyRotateUp r c).targetFInclinAng =
      c.targetFInclinAng ∧
    (NA3DCamera.actuallyRotateUp r c).t = c.t ∧
    (NA3DCamera.actuallyRotateUp r c).maxUpAng = c.maxUpAng ∧
    (NA3DCamera.actuallyRotateUp r c).minUpAng = c.minUpAng := by
  rw [NA3DCamera.actuallyRotateUp, if_neg hz, if_neg h1, if_neg h2]
  exact ⟨rfl, rfl, rfl, rfl, rfl, rfl, rfl, rfl, rfl, rfl, rfl⟩

theorem actuallyInclineRight_angles (r : ℝ) (c : NA3DCamera)
    (hz : ¬ (|r| < Utils.epsilon)) :
    (NA3DCamera.actuallyInclineRight r c).rInclinAng = c.rInclinAng + r ∧
    (NA3DCamera.actuallyInclineRight r c).xAng = c.xAng ∧
    (NA3DCamera.actuallyInclineRight r c).yAng = c.yAng ∧
    (NA3DCamera.actuallyInclineRight r c).fInclinAng = c.fInclinAng ∧
    (NA3DCamera.actuallyInclineRight r c).targetXang = c.targetXang ∧
    (NA3DCamera.actuallyInclineRight r c).targetYang = c.targetYang ∧
    (NA3DCamera.actuallyInclineRight r c).targetRInclinAng =
      c.targetRInclinAng ∧
    (NA3DCamera.actuallyInclineRight r c).targetFInclinAng =
      c.targetFInclinAng ∧
    (NA3DCamera.actuallyInclineRight r c).t = c.t ∧
    (NA3DCamera.actuallyInclineRight r c).maxUpAng = c.maxUpAng ∧
    (NA3DCamera.actuallyInclineRight r c).minUpAng = c.minUpAng := by
  rw [NA3DCamera.actuallyInclineRight, if_neg hz]
  exact ⟨rfl, rfl, rfl, rfl, rfl, rfl, rfl, rfl, rfl, rfl, rfl⟩

theorem actuallyInclineForward_angles (r : ℝ) (c : NA3DCamera)
    (hz : ¬ (|r| < Utils.epsilon)) :
    (NA3DCamera.actuallyInclineForward r c).fInclinAng = c.fInclinAng + r ∧
    (NA3DCamera.actuallyInclineForward r c).xAng = c.xAng ∧
    (NA3DCamera.actuallyInclineForward r c).yAng = c.yAng ∧
    (NA3DCamera.actuallyInclineForward r c).rInclinAng = c.rInclinAng ∧
    (NA3DCamera.actuallyInclineForward r c).targetXang = c.targetXang ∧
    (NA3DCamera.actuallyInclineForward r c).targetYang = c.targetYang ∧
    (NA3DCamera.actuallyInclineForward r c).targetRInclinAng =
      c.targetRInclinAng ∧
    (NA3DCamera.actuallyInclineForward r c).targetFInclinAng =
      c.targetFInclinAng := by
  rw [NA3DCamera.actuallyInclineForward, if_neg hz]
  exact ⟨rfl, rfl, rfl, rfl, rfl, rfl, rfl, rfl⟩

/-- C9 (amended): a freshly constructed camera has `t = s = 1`, a value
outside the `[0.001, 0.999]` range `setSmoothness` can ever produce; with
`t = s = 1`, the first `update()` after smoothed setters moves the
position exactly to its target, and each tracked angle exactly to its
target provided the residual delta exceeds the shared epsilon (a delta at
or below epsilon is skipped by the no-op short-circuit, leaving the angle
just short of its target) and, for the elevation angle, its target lies
within `[minUpAng, maxUpAng]`. -/
theorem fresh_camera_snaps (p pd lk : Vector3) (xa mx lo po : ℝ)
    (c : NA3DCamera) (ht : c.t = 1) (hs : c.s = 1)
    (hx : ¬ Utils.isZero (c.targetXang - c.xAng))
    (hy : ¬ Utils.isZero (c.targetYang - c.yAng))
    (hymax : c.targetYang ≤ c.maxUpAng)
    (hymin : c.minUpAng ≤ c.targetYang)
    (hri : ¬ (|c.targetRInclinAng - c.rInclinAng| < Utils.epsilon))
    (hfi : ¬ (|c.targetFInclinAng - c.fInclinAng| < Utils.epsilon)) :
    (NA3DCamera.mk' p pd lk xa mx).t = 1 ∧
    (NA3DCamera.mk' p pd lk xa mx).s = 1 ∧
    (0.001 ≤ (NA3DCamera.setSmoothness lo po c).t ∧
      (NA3DCamera.setSmoothness lo po c).t ≤ 0.999) ∧
    (0.001 ≤ (NA3DCamera.setSmoothness lo po c).s ∧
      (NA3DCamera.setSmoothness lo po c).s ≤ 0.999) ∧
    (NA3DCamera.update c).xAng = c.targetXang ∧
    (NA3DCamera.update c).yAng = c.targetYang ∧
    (NA3DCamera.update c).rInclinAng = c.targetRInclinAng ∧
    (NA3DCamera.update c).fInclinAng = c.targetFInclinAng ∧
    (NA3DCamera.update c).position = c.targetPosition := by
  have hclampL := clamp_bounds 0.001 lo 0.999 (by norm_num)
  have hclampP := clamp_bounds 0.001 po 0.999 (by norm_num)
  have hsm1 : (NA3DCamera.setSmoothness lo po c).t =
      1 - Utils.clamp 0.001 lo 0.999 := rfl
  have hsm2 : (NA3DCamera.setSmoothness lo po c).s =
      1 - Utils.clamp 0.001 po 0.999 := rfl
  -- step 1: the horizontal angle snaps.
  have hd1 : Utils.lerp c.xAng c.targetXang c.t - c.xAng =
      c.targetXang - c.xAng := by
    rw [ht, lerp_one]
  have hz1 : ¬ Utils.isZero
      (Utils.lerp c.xAng c.targetXang c.t - c.xAng) := by
    rw [hd1]; exact hx
  obtain ⟨a1, a2, a3, a4, a5, a6, a7, a8, a9, a10, a11⟩ :=
    actuallyRotateLeft_angles (Utils.lerp c.xAng c.targetXang c.t - c.xAng)
      c hz1
  have s1x : (NA3DCamera.stepX c).xAng = c.targetXang := by
    show (NA3DCamera.actuallyRotateLeft
      (Utils.lerp c.xAng c.targetXang c.t - c.xAng) c).xAng = c.targetXang
    rw [a1, hd1]
    ring
  have s1y : (NA3DCamera.stepX c).yAng = c.yAng := a2
  have s1r : (NA3DCamera.stepX c).rInclinAng = c.rInclinAng := a3
  have s1f : (NA3DCamera.stepX c).fInclinAng = c.fInclinAng := a4
  have s1ty : (NA3DCamera.stepX c).targetYang = c.targetYang := a6
  have s1tr : (NA3DCamera.stepX c).targetRInclinAng =
      c.targetRInclinAng := a7
  have s1tf : (NA3DCamera.stepX c).targetFInclinAng =
      c.targetFInclinAng := a8
  have s1t : (NA3DCamera.stepX c).t = 1 := a9.trans ht
  have s1max : (NA3DCamera.stepX c).maxUpAng = c.maxUpAng := a10
  have s1min : (NA3DCamera.stepX c).minUpAng = c.minUpAng := a11
  -- step 2: the vertical angle snaps (target within the clamp bounds).
  have hd2 : Utils.lerp (NA3DCamera.stepX c).yAng
      (NA3DCamera.stepX c).targetYang (NA3DCamera.stepX c).t -
      (NA3DCamera.stepX c).yAng = c.targetYang - c.yAng := by
    rw [s1y, s1ty, s1t, lerp_one]
  have hz2 : ¬ Utils.isZero (Utils.lerp (NA3DCamera.stepX c).yAng
      (NA3DCamera.stepX c).targetYang (NA3DCamera.stepX c).t -
      (NA3DCamera.stepX c).yAng) := by
    rw [hd2]; exact hy
  have hb1 : ¬ ((NA3DCamera.stepX c).maxUpAng <
      (NA3DCamera.stepX c).yAng + (Utils.lerp (NA3DCamera.stepX c).yAng
        (NA3DCamera.stepX c).targetYang (NA3DCamera.stepX c).t -
        (NA3DCamera.stepX c).yAng)) := by
    rw [hd2, s1y, s1max]
    intro hlt
    have : c.targetYang ≤ c.maxUpAng := hymax
    linarith
  have hb2 : ¬ ((NA3DCamera.stepX c).yAng + (Utils.lerp
      (NA3DCamera.stepX c).yAng (NA3DCamera.stepX c).targetYang
      (NA3DCamera.stepX c).t - (NA3DCamera.stepX c).yAng) <
      (NA3DCamera.stepX c).minUpAng) := by
    rw [hd2, s1y, s1min]
    intro hlt
    linarith
  obtain ⟨b1, b2, b3, b4, b5, b6, b7, b8, b9, b10, b11⟩ :=
    actuallyRotateUp_angles (Utils.lerp (NA3DCamera.stepX c).yAng
      (NA3DCamera.stepX c).targetYang (NA3DCamera.stepX c).t -
      (NA3DCamera.stepX c).yAng) (NA3DCamera.stepX c) hz2 hb1 hb2
  have s2y : (NA3DCamera.stepY (NA3DCamera.stepX c)).yAng =
      c.targetYang := by
    show (NA3DCamera.actuallyRotateUp (Utils.lerp (NA3DCamera.stepX c).yAng
      (NA3DCamera.stepX c).targetYang (NA3DCamera.stepX c).t -
      (NA3DCamera.stepX c).yAng) (NA3DCamera.stepX c)).yAng = c.targetYang
    rw [b1, hd2, s1y]
    ring
  have s2x : (NA3DCamera.stepY (NA3DCamera.stepX c)).xAng =
      c.targetXang := b2.trans s1x
  have s2r : (NA3DCamera.stepY (NA3DCamera.stepX c)).rInclinAng =
      c.rInclinAng := b3.trans s1r
  have s2f : (NA3DCamera.stepY (NA3DCamera.stepX c)).fInclinAng =
      c.fInclinAng := b4.trans s1f
  have s2tr : (NA3DCamera.stepY (NA3DCamera.stepX c)).targetRInclinAng =
      c.targetRInclinAng := b7.trans s1tr
  have s2tf : (NA3DCamera.stepY (NA3DCamera.stepX c)).targetFInclinAng =
      c.targetFInclinAng := b8.trans s1tf
  have s2t : (NA3DCamera.stepY (NA3DCamera.stepX c)).t = 1 := b9.trans s1t
  -- step 3: the right-inclination angle snaps.
  have hd3 : Utils.lerp (NA3DCamera.stepY (NA3DCamera.stepX c)).rInclinAng
      (NA3DCamera.stepY (NA3DCamera.stepX c)).targetRInclinAng
      (NA3DCamera.stepY (NA3DCamera.stepX c)).t -
      (NA3DCamera.stepY (NA3DCamera.stepX c)).rInclinAng =
      c.targetRInclinAng - c.rInclinAng := by
    rw [s2r, s2tr, s2t, lerp_one]
  have hz3 : ¬ (|Utils.lerp (NA3DCamera.stepY
      (NA3DCamera.stepX c)).rInclinAng
      (NA3DCamera.stepY (NA3DCamera.stepX c)).targetRInclinAng
      (NA3DCamera.stepY (NA3DCamera.stepX c)).t -
      (NA3DCamera.stepY (NA3DCamera.stepX c)).rInclinAng| <
      Utils.epsilon) := by
    rw [hd3]; exact hri
  obtain ⟨d1, d2, d3, d4, d5, d6, d7, d8, d9, d10, d11⟩ :=
    actuallyInclineRight_angles (Utils.lerp
      (NA3DCamera.stepY (NA3DCamera.stepX c)).rInclinAng
      (NA3DCamera.stepY (NA3DCamera.stepX c)).targetRInclinAng
      (NA3DCamera.stepY (NA3DCamera.stepX c)).t -
      (NA3DCamera.stepY (NA3DCamera.stepX c)).rInclinAng)
      (NA3DCamera.stepY (NA3DCamera.stepX c)) hz3
  have s3r : (NA3DCamera.stepR (NA3DCamera.stepY
      (NA3DCamera.stepX c))).rInclinAng = c.targetRInclinAng := by
    show (NA3DCamera.actuallyInclineRight (Utils.lerp
      (NA3DCamera.stepY (NA3DCamera.stepX c)).rInclinAng
      (NA3DCamera.stepY (NA3DCamera.stepX c)).targetRInclinAng
      (NA3DCamera.stepY (NA3DCamera.stepX c)).t -
      (NA3DCamera.stepY (NA3DCamera.stepX c)).rInclinAng)
      (NA3DCamera.stepY (NA3DCamera.stepX c))).rInclinAng =
      c.targetRInclinAng
    rw [d1, hd3, s2r]
    ring
  have s3x : (NA3DCamera.stepR (NA3DCamera.stepY
      (NA3DCamera.stepX c))).xAng = c.targetXang := d2.trans s2x
  have s3y : (NA3DCamera.stepR (NA3DCamera.stepY
      (NA3DCamera.stepX c))).yAng = c.targetYang := d3.trans s2y
  have s3f : (NA3DCamera.stepR (NA3DCamera.stepY
      (NA3DCamera.stepX c))).fInclinAng = c.fInclinAng := d4.trans s2f
  have s3tf : (NA3DCamera.stepR (NA3DCamera.stepY
      (NA3DCamera.stepX c))).targetFInclinAng =
      c.targetFInclinAng := d8.trans s2tf
  have s3t : (NA3DCamera.stepR (NA3DCamera.stepY
      (NA3DCamera.stepX c))).t = 1 := d9.trans s2t
  -- step 4: the forward-inclination angle snaps.
  have hd4 : Utils.lerp (NA3DCamera.stepR (NA3DCamera.stepY
      (NA3DCamera.stepX c))).fInclinAng
      (NA3DCamera.stepR (NA3DCamera.stepY
        (NA3DCamera.stepX c))).targetFInclinAng
      (NA3DCamera.stepR (NA3DCamera.stepY (NA3DCamera.stepX c))).t -
      (NA3DCamera.stepR (NA3DCamera.stepY
        (NA3DCamera.stepX c))).fInclinAng =
      c.targetFInclinAng - c.fInclinAng := by
    rw [s3f, s3tf, s3t, lerp_one]
  have hz4 : ¬ (|Utils.lerp (NA3DCamera.stepR (NA3DCamera.stepY
      (NA3DCamera.stepX c))).fInclinAng
      (NA3DCamera.stepR (NA3DCamera.stepY
        (NA3DCamera.stepX c))).targetFInclinAng
      (NA3DCamera.stepR (NA3DCamera.stepY (NA3DCamera.stepX c))).t -
      (NA3DCamera.stepR (NA3DCamera.stepY
        (NA3DCamera.stepX c))).fInclinAng| < Utils.epsilon) := by
    rw [hd4]; exact hfi
  obtain ⟨e1, e2, e3, e4, e5, e6, e7, e8⟩ :=
    actuallyInclineForward_angles (Utils.lerp
      (NA3DCamera.stepR (NA3DCamera.stepY (NA3DCamera.stepX c))).fInclinAng
      (NA3DCamera.stepR (NA3DCamera.stepY
        (NA3DCamera.stepX c))).targetFInclinAng
      (NA3DCamera.stepR (NA3DCamera.stepY (NA3DCamera.stepX c))).t -
      (NA3DCamera.stepR (NA3DCamera.stepY
        (NA3DCamera.stepX c))).fInclinAng)
      (NA3DCamera.stepR (NA3DCamera.stepY (NA3DCamera.stepX c))) hz4
  have s4f : (NA3DCamera.stepF (NA3DCamera.stepR (NA3DCamera.stepY
      (NA3DCamera.stepX c)))).fInclinAng = c.targetFInclinAng := by
    show (NA3DCamera.actuallyInclineForward (Utils.lerp
      (NA3DCamera.stepR (NA3DCamera.stepY
        (NA3DCamera.stepX c))).fInclinAng
      (NA3DCamera.stepR (NA3DCamera.stepY
        (NA3DCamera.stepX c))).targetFInclinAng
      (NA3DCamera.stepR (NA3DCamera.stepY (NA3DCamera.stepX c))).t -
      (NA3DCamera.stepR (NA3DCamera.stepY
        (NA3DCamera.stepX c))).fInclinAng)
      (NA3DCamera.stepR (NA3DCamera.stepY
        (NA3DCamera.stepX c)))).fInclinAng = c.targetFInclinAng
    rw [e1, hd4, s3f]
    ring
  have s4x : (NA3DCamera.stepF (NA3DCamera.stepR (NA3DCamera.stepY
      (NA3DCamera.stepX c)))).xAng = c.targetXang := e2.trans s3x
  have s4y : (NA3DCamera.stepF (NA3DCamera.stepR (NA3DCamera.stepY
      (NA3DCamera.stepX c)))).yAng = c.targetYang := e3.trans s3y
  have s4r : (NA3DCamera.stepF (NA3DCamera.stepR (NA3DCamera.stepY
      (NA3DCamera.stepX c)))).rInclinAng = c.targetRInclinAng :=
    e4.trans s3r
  have hpos : (NA3DCamera.update c).position = c.targetPosition := by
    rw [update_position c, hs, vlerp_one]
  refine ⟨rfl, rfl, ?_, ?_, ?_, ?_, ?_, ?_, hpos⟩
  · rw [hsm1]; constructor <;> [linarith [hclampL.2]; linarith [hclampL.1]]
  · rw [hsm2]; constructor <;> [linarith [hclampP.2]; linarith [hclampP.1]]
  · exact s4x
  · exact s4y
  · exact s4r
  · exact s4f

/-- Witness for C9: a camera with `t = s = 1` and fresh targets one tick
away snaps to every target after a single `update()`. -/
theorem fresh_camera_snaps_witness :
    (NA3DCamera.update { demoCamera with
        targetXang := 1, targetYang := 1/2, targetRInclinAng := 1,
        targetFInclinAng := 1, targetPosition := ⟨1, 2, 3⟩ }).xAng = 1 ∧
    (NA3DCamera.update { demoCamera with
        targetXang := 1, targetYang := 1/2, targetRInclinAng := 1,
        targetFInclinAng := 1, targetPosition := ⟨1, 2, 3⟩ }).yAng = 1/2 ∧
    (NA3DCamera.update { demoCamera with
        targetXang := 1, targetYang := 1/2, targetRInclinAng := 1,
        targetFInclinAng := 1, targetPosition := ⟨1, 2, 3⟩ }).position = ⟨1, 2, 3⟩ := by
  have h := fresh_camera_snaps ⟨0, 0, 0⟩ ⟨0, 0, 1⟩ ⟨0, 1, 0⟩ 0 1 0 0
    { demoCamera with
      targetXang := 1, targetYang := 1/2, targetRInclinAng := 1,
      targetFInclinAng := 1, targetPosition := ⟨1, 2, 3⟩ }
    rfl rfl
    (by norm_num [demoCamera, Utils.isZero, Utils.epsilon, abs_le])
    (by norm_num [demoCamera, Utils.isZero, Utils.epsilon, abs_le])
    (by norm_num [demoCamera])
    (by norm_num [demoCamera])
    (by norm_num [demoCamera, Utils.epsilon, abs_lt])
    (by norm_num [demoCamera, Utils.epsilon, abs_lt])
  exact ⟨h.2.2.2.2.1, h.2.2.2.2.2.1, h.2.2.2.2.2.2.2.2⟩

theorem actuallyRotateLeft_noop (r : ℝ) (c : NA3DCamera)
    (h : Utils.isZero r) : NA3DCamera.actuallyRotateLeft r c = c := by
  rw [NA3DCamera.actuallyRotateLeft, if_pos h]

theorem actuallyRotateUp_noop (r : ℝ) (c : NA3DCamera)
    (h : Utils.isZero r) : NA3DCamera.actuallyRotateUp r c = c := by
  rw [NA3DCamera.actuallyRotateUp, if_pos h]

theorem actuallyInclineRight_noop (r : ℝ) (c : NA3DCamera)
    (h : |r| < Utils.epsilon) : NA3DCamera.actuallyInclineRight r c = c := by
  rw [NA3DCamera.actuallyInclineRight, if_pos h]

theorem actuallyInclineForward_noop (r : ℝ) (c : NA3DCamera)
    (h : |r| < Utils.epsilon) :
    NA3DCamera.actuallyInclineForward r c = c := by
  rw [NA3DCamera.actuallyInclineForward, if_pos h]

/-- Counterexample for C9 as literally stated: on a fresh camera, a
`rotateLeft` request of `1e-9` radians (non-zero, below the `1e-8`
epsilon) is skipped by the first `update()`'s no-op short-circuit, so the
tracked horizontal angle does not move exactly to its target. -/
theorem fresh_camera_snaps_counterexample :
    (NA3DCamera.update (NA3DCamera.rotateLeft 1e-9
      (NA3DCamera.mk' ⟨0, 0, 0⟩ ⟨0, 0, 1⟩ ⟨0, 1, 0⟩ 0
        (Real.pi / 3)))).xAng ≠
    (NA3DCamera.rotateLeft 1e-9
      (NA3DCamera.mk' ⟨0, 0, 0⟩ ⟨0, 0, 1⟩ ⟨0, 1, 0⟩ 0
        (Real.pi / 3))).targetXang := by
  have hδ1 : Utils.lerp
      (NA3DCamera.rotateLeft 1e-9 (NA3DCamera.mk' ⟨0, 0, 0⟩ ⟨0, 0, 1⟩
        ⟨0, 1, 0⟩ 0 (Real.pi / 3))).xAng
      (NA3DCamera.rotateLeft 1e-9 (NA3DCamera.mk' ⟨0, 0, 0⟩ ⟨0, 0, 1⟩
        ⟨0, 1, 0⟩ 0 (Real.pi / 3))).targetXang
      (NA3DCamera.rotateLeft 1e-9 (NA3DCamera.mk' ⟨0, 0, 0⟩ ⟨0, 0, 1⟩
        ⟨0, 1, 0⟩ 0 (Real.pi / 3))).t -
      (NA3DCamera.rotateLeft 1e-9 (NA3DCamera.mk' ⟨0, 0, 0⟩ ⟨0, 0, 1⟩
        ⟨0, 1, 0⟩ 0 (Real.pi / 3))).xAng = 1e-9 := by
    show Utils.lerp (-(0:ℝ)) (-(0:ℝ) + 1e-9) 1 - (-(0:ℝ)) = 1e-9
    rw [Utils.lerp]
    norm_num
  have hz1 : Utils.isZero (Utils.lerp
      (NA3DCamera.rotateLeft 1e-9 (NA3DCamera.mk' ⟨0, 0, 0⟩ ⟨0, 0, 1⟩
        ⟨0, 1, 0⟩ 0 (Real.pi / 3))).xAng
      (NA3DCamera.rotateLeft 1e-9 (NA3DCamera.mk' ⟨0, 0, 0⟩ ⟨0, 0, 1⟩
        ⟨0, 1, 0⟩ 0 (Real.pi / 3))).targetXang
      (NA3DCamera.rotateLeft 1e-9 (NA3DCamera.mk' ⟨0, 0, 0⟩ ⟨0, 0, 1⟩
        ⟨0, 1, 0⟩ 0 (Real.pi / 3))).t -
      (NA3DCamera.rotateLeft 1e-9 (NA3DCamera.mk' ⟨0, 0, 0⟩ ⟨0, 0, 1⟩
        ⟨0, 1, 0⟩ 0 (Real.pi / 3))).xAng) := by
    rw [hδ1]
    norm_num [Utils.isZero, Utils.epsilon, abs_le]
  have hX : NA3DCamera.stepX (NA3DCamera.rotateLeft 1e-9
      (NA3DCamera.mk' ⟨0, 0, 0⟩ ⟨0, 0, 1⟩ ⟨0, 1, 0⟩ 0 (Real.pi / 3))) =
      NA3DCamera.rotateLeft 1e-9
        (NA3DCamera.mk' ⟨0, 0, 0⟩ ⟨0, 0, 1⟩ ⟨0, 1, 0⟩ 0 (Real.pi / 3)) :=
    actuallyRotateLeft_noop _ _ hz1
  have hY : NA3DCamera.stepY (NA3DCamera.rotateLeft 1e-9
      (NA3DCamera.mk' ⟨0, 0, 0⟩ ⟨0, 0, 1⟩ ⟨0, 1, 0⟩ 0 (Real.pi / 3))) =
      NA3DCamera.rotateLeft 1e-9
        (NA3DCamera.mk' ⟨0, 0, 0⟩ ⟨0, 0, 1⟩ ⟨0, 1, 0⟩ 0 (Real.pi / 3)) := by
    apply actuallyRotateUp_noop
    have hδ : Utils.lerp
        (NA3DCamera.rotateLeft 1e-9 (NA3DCamera.mk' ⟨0, 0, 0⟩ ⟨0, 0, 1⟩
          ⟨0, 1, 0⟩ 0 (Real.pi / 3))).yAng
        (NA3DCamera.rotateLeft 1e-9 (NA3DCamera.mk' ⟨0, 0, 0⟩ ⟨0, 0, 1⟩
          ⟨0, 1, 0⟩ 0 (Real.pi / 3))).targetYang
        (NA3DCamera.rotateLeft 1e-9 (NA3DCamera.mk' ⟨0, 0, 0⟩ ⟨0, 0, 1⟩
          ⟨0, 1, 0⟩ 0 (Real.pi / 3))).t -
        (NA3DCamera.rotateLeft 1e-9 (NA3DCamera.mk' ⟨0, 0, 0⟩ ⟨0, 0, 1⟩
          ⟨0, 1, 0⟩ 0 (Real.pi / 3))).yAng = 0 := by
      have hyy : (NA3DCamera.rotateLeft 1e-9 (NA3DCamera.mk' ⟨0, 0, 0⟩
          ⟨0, 0, 1⟩ ⟨0, 1, 0⟩ 0 (Real.pi / 3))).targetYang =
          (NA3DCamera.rotateLeft 1e-9 (NA3DCamera.mk' ⟨0, 0, 0⟩ ⟨0, 0, 1⟩
            ⟨0, 1, 0⟩ 0 (Real.pi / 3))).yAng := rfl
      rw [Utils.lerp, hyy]
      ring
    rw [hδ]
    norm_num [Utils.isZero, Utils.epsilon]
  have hR : NA3DCamera.stepR (NA3DCamera.rotateLeft 1e-9
      (NA3DCamera.mk' ⟨0, 0, 0⟩ ⟨0, 0, 1⟩ ⟨0, 1, 0⟩ 0 (Real.pi / 3))) =
      NA3DCamera.rotateLeft 1e-9
        (NA3DCamera.mk' ⟨0, 0, 0⟩ ⟨0, 0, 1⟩ ⟨0, 1, 0⟩ 0 (Real.pi / 3)) := by
    apply actuallyInclineRight_noop
    have hδ : Utils.lerp
        (NA3DCamera.rotateLeft 1e-9 (NA3DCamera.mk' ⟨0, 0, 0⟩ ⟨0, 0, 1⟩
          ⟨0, 1, 0⟩ 0 (Real.pi / 3))).rInclinAng
        (NA3DCamera.rotateLeft 1e-9 (NA3DCamera.mk' ⟨0, 0, 0⟩ ⟨0, 0, 1⟩
          ⟨0, 1, 0⟩ 0 (Real.pi / 3))).targetRInclinAng
        (NA3DCamera.rotateLeft 1e-9 (NA3DCamera.mk' ⟨0, 0, 0⟩ ⟨0, 0, 1⟩
          ⟨0, 1, 0⟩ 0 (Real.pi / 3))).t -
        (NA3DCamera.rotateLeft 1e-9 (NA3DCamera.mk' ⟨0, 0, 0⟩ ⟨0, 0, 1⟩
          ⟨0, 1, 0⟩ 0 (Real.pi / 3))).rInclinAng = 0 := by
      show Utils.lerp (0:ℝ) 0 1 - 0 = 0
      rw [Utils.lerp]
      ring
    rw [hδ]
    norm_num [Utils.epsilon]
  have hF : NA3DCamera.stepF (NA3DCamera.rotateLeft 1e-9
      (NA3DCamera.mk' ⟨0, 0, 0⟩ ⟨0, 0, 1⟩ ⟨0, 1, 0⟩ 0 (Real.pi / 3))) =
      NA3DCamera.rotateLeft 1e-9
        (NA3DCamera.mk' ⟨0, 0, 0⟩ ⟨0, 0, 1⟩ ⟨0, 1, 0⟩ 0 (Real.pi / 3)) := by
    apply actuallyInclineForward_noop
    have hδ : Utils.lerp
        (NA3DCamera.rotateLeft 1e-9 (NA3DCamera.mk' ⟨0, 0, 0⟩ ⟨0, 0, 1⟩
          ⟨0, 1, 0⟩ 0 (Real.pi / 3))).fInclinAng
        (NA3DCamera.rotateLeft 1e-9 (NA3DCamera.mk' ⟨0, 0, 0⟩ ⟨0, 0, 1⟩
          ⟨0, 1, 0⟩ 0 (Real.pi / 3))).targetFInclinAng
        (NA3DCamera.rotateLeft 1e-9 (NA3DCamera.mk' ⟨0, 0, 0⟩ ⟨0, 0, 1⟩
          ⟨0, 1, 0⟩ 0 (Real.pi / 3))).t -
        (NA3DCamera.rotateLeft 1e-9 (NA3DCamera.mk' ⟨0, 0, 0⟩ ⟨0, 0, 1⟩
          ⟨0, 1, 0⟩ 0 (Real.pi / 3))).fInclinAng = 0 := by
      show Utils.lerp (0:ℝ) 0 1 - 0 = 0
      rw [Utils.lerp]
      ring
    rw [hδ]
    norm_num [Utils.epsilon]
  have hupd : (NA3DCamera.update (NA3DCamera.rotateLeft 1e-9
      (NA3DCamera.mk' ⟨0, 0, 0⟩ ⟨0, 0, 1⟩ ⟨0, 1, 0⟩ 0
        (Real.pi / 3)))).xAng =
      (NA3DCamera.stepF (NA3DCamera.stepR (NA3DCamera.stepY
        (NA3DCamera.stepX (NA3DCamera.rotateLeft 1e-9
          (NA3DCamera.mk' ⟨0, 0, 0⟩ ⟨0, 0, 1⟩ ⟨0, 1, 0⟩ 0
            (Real.pi / 3))))))).xAng := rfl
  rw [hupd, hX, hY, hR, hF]
  show (-(0:ℝ)) ≠ -(0:ℝ) + 1e-9
  norm_num

/-- C3: the round-trip contract fails on the code. For the unit vector
`u = (√2/2, 0, √2/2)` at 45° elevation (not collinear with the vertical
`(0,0,1)`, reference `(1,0,0)`), `toVector3 ∘ fromVector3` differs from
`u` in the second component by more than `1e-6`: `fromVector3` passes the
unnormalized axis `cross(u, vertical)` (norm `cos 45° ≠ 1`) to
`rotateAboutOrthogonal`, so the leveled direction keeps a vertical
component and the recovered azimuth is wrong. The spec's contract (and the
normalized variant in the camera constructor and in the commented-out
alternative next to the source) shows the code is the slip. -/
theorem direction2_roundtrip_bug :
    1e-6 < |((Direction2.fromVector3 ⟨Real.sqrt 2 / 2, 0, Real.sqrt 2 / 2⟩
        ⟨0, 0, 1⟩ ⟨1, 0, 0⟩).toVector3 ⟨0, 0, 1⟩ ⟨1, 0, 0⟩).y -
      (⟨Real.sqrt 2 / 2, 0, Real.sqrt 2 / 2⟩ : Vector3).y| ∧
    (⟨Real.sqrt 2 / 2, 0, Real.sqrt 2 / 2⟩ : Vector3).norm = 1 ∧
    ¬ (Vector3.cross ⟨Real.sqrt 2 / 2, 0, Real.sqrt 2 / 2⟩
        ⟨0, 0, 1⟩).isZero := by
  have h2nn : (0:ℝ) ≤ 2 := by norm_num
  have hs2sq : Real.sqrt 2 * Real.sqrt 2 = 2 := Real.mul_self_sqrt h2nn
  have hs2nn : (0:ℝ) ≤ Real.sqrt 2 := Real.sqrt_nonneg 2
  have hs2lb : (1.4:ℝ) ≤ Real.sqrt 2 := by nlinarith
  have hs2ub : Real.sqrt 2 ≤ (1.5:ℝ) := by nlinarith
  -- the elevation angle recovered by fromVector3 is π/4.
  have hdot : Vector3.dot ⟨Real.sqrt 2 / 2, 0, Real.sqrt 2 / 2⟩
      ⟨0, 0, 1⟩ = Real.sqrt 2 / 2 := by
    simp [Vector3.dot]
  have hab : Vector3.angleBetween ⟨Real.sqrt 2 / 2, 0, Real.sqrt 2 / 2⟩
      ⟨0, 0, 1⟩ = Real.pi / 4 := by
    rw [Vector3.angleBetween, hdot, ← Real.cos_pi_div_four,
      Real.arccos_cos (by positivity) (by linarith [Real.pi_pos])]
  have hv4 : (Direction2.fromVector3 ⟨Real.sqrt 2 / 2, 0, Real.sqrt 2 / 2⟩
      ⟨0, 0, 1⟩ ⟨1, 0, 0⟩).v = Real.pi / 4 := by
    show Real.pi / 2 -
      Vector3.angleBetween ⟨Real.sqrt 2 / 2, 0, Real.sqrt 2 / 2⟩
        ⟨0, 0, 1⟩ = Real.pi / 4
    rw [hab]
    ring
  -- the receiver is far from zero.
  have huz : ¬ (⟨Real.sqrt 2 / 2, 0, Real.sqrt 2 / 2⟩ : Vector3).isZero := by
    intro h
    have h1 : |Real.sqrt 2 / 2| ≤ Utils.epsilon := h.1
    rw [abs_of_pos (by positivity), Utils.epsilon] at h1
    norm_num at h1
    linarith
  -- the unnormalized leveling axis.
  have hcr : Vector3.cross ⟨Real.sqrt 2 / 2, 0, Real.sqrt 2 / 2⟩
      ⟨0, 0, 1⟩ = ⟨0, -(Real.sqrt 2 / 2), 0⟩ := by
    apply Vector3.ext <;> simp [Vector3.cross]
  -- the "leveled" direction computed by the code keeps a vertical part.
  have hHD : Vector3.rotateAboutOrthogonal
      ⟨Real.sqrt 2 / 2, 0, Real.sqrt 2 / 2⟩ ⟨0, -(Real.sqrt 2 / 2), 0⟩
      (-(Real.pi / 4)) =
      ⟨1/2 + Real.sqrt 2 / 4, 0, 1/2 - Real.sqrt 2 / 4⟩ := by
    rw [Vector3.rotateAboutOrthogonal, if_neg huz, Real.cos_neg,
      Real.sin_neg, Real.cos_pi_div_four, Real.sin_pi_div_four]
    apply Vector3.ext
    · simp only [Vector3.cross, Vector3.times, Vector3.increasedBy]
      linear_combination (1/4 + Real.sqrt 2 / 8) * hs2sq
    · simp only [Vector3.cross, Vector3.times, Vector3.increasedBy]
      ring
    · simp only [Vector3.cross, Vector3.times, Vector3.increasedBy]
      linear_combination (1/4 - Real.sqrt 2 / 8) * hs2sq
  -- the recovered azimuth.
  have hh : (Direction2.fromVector3 ⟨Real.sqrt 2 / 2, 0, Real.sqrt 2 / 2⟩
      ⟨0, 0, 1⟩ ⟨1, 0, 0⟩).h =
      Real.arccos (1/2 + Real.sqrt 2 / 4) := by
    show Vector3.signedAngleBetween ⟨1, 0, 0⟩
      (Vector3.rotateAboutOrthogonal ⟨Real.sqrt 2 / 2, 0, Real.sqrt 2 / 2⟩
        (Vector3.cross ⟨Real.sqrt 2 / 2, 0, Real.sqrt 2 / 2⟩ ⟨0, 0, 1⟩)
        (-(Real.pi / 2 -
          Vector3.angleBetween ⟨Real.sqrt 2 / 2, 0, Real.sqrt 2 / 2⟩
            ⟨0, 0, 1⟩)))
      ⟨0, 0, 1⟩ = Real.arccos (1/2 + Real.sqrt 2 / 4)
    rw [hab, show -(Real.pi / 2 - Real.pi / 4) = -(Real.pi / 4) from by ring,
      hcr, hHD]
    have hsgn : Vector3.dot (Vector3.cross ⟨1, 0, 0⟩
        ⟨1/2 + Real.sqrt 2 / 4, 0, 1/2 - Real.sqrt 2 / 4⟩) ⟨0, 0, 1⟩ = 0 := by
      simp [Vector3.dot, Vector3.cross]
    rw [Vector3.signedAngleBetween, if_neg (not_lt.mpr hsgn.ge),
      Vector3.angleBetween]
    congr 1
    simp [Vector3.dot]
  -- bounds on the cosine of the recovered azimuth.
  have hc0lb : (-1:ℝ) ≤ 1/2 + Real.sqrt 2 / 4 := by linarith
  have hc0ub : (1/2:ℝ) + Real.sqrt 2 / 4 ≤ 1 := by linarith
  have hch : Real.cos (Direction2.fromVector3
      ⟨Real.sqrt 2 / 2, 0, Real.sqrt 2 / 2⟩ ⟨0, 0, 1⟩ ⟨1, 0, 0⟩).h =
      1/2 + Real.sqrt 2 / 4 := by
    rw [hh, Real.cos_arccos hc0lb hc0ub]
  have hsh : Real.sin (Direction2.fromVector3
      ⟨Real.sqrt 2 / 2, 0, Real.sqrt 2 / 2⟩ ⟨0, 0, 1⟩ ⟨1, 0, 0⟩).h =
      Real.sqrt (1 - (1/2 + Real.sqrt 2 / 4)^2) := by
    rw [hh, Real.sin_arccos]
  -- the forward conversion, evaluated.
  have hr1 : ∀ θ : ℝ, Vector3.rotateAboutOrthogonal ⟨1, 0, 0⟩ ⟨0, 0, 1⟩ θ =
      ⟨Real.cos θ, Real.sin θ, 0⟩ := by
    intro θ
    rw [Vector3.rotateAboutOrthogonal,
      if_neg (by norm_num [Vector3.isZero, Utils.isZero, Utils.epsilon])]
    apply Vector3.ext <;>
      simp [Vector3.cross, Vector3.times, Vector3.increasedBy]
  have hr2 : ∀ θ : ℝ, Vector3.cross ⟨Real.cos θ, Real.sin θ, 0⟩ ⟨0, 0, 1⟩ =
      ⟨Real.sin θ, -(Real.cos θ), 0⟩ := by
    intro θ
    apply Vector3.ext <;> simp [Vector3.cross]
  have hr1nz : ¬ (⟨Real.cos (Direction2.fromVector3
      ⟨Real.sqrt 2 / 2, 0, Real.sqrt 2 / 2⟩ ⟨0, 0, 1⟩ ⟨1, 0, 0⟩).h,
      Real.sin (Direction2.fromVector3
        ⟨Real.sqrt 2 / 2, 0, Real.sqrt 2 / 2⟩ ⟨0, 0, 1⟩ ⟨1, 0, 0⟩).h,
      0⟩ : Vector3).isZero := by
    intro h
    have h1 : |Real.cos (Direction2.fromVector3
        ⟨Real.sqrt 2 / 2, 0, Real.sqrt 2 / 2⟩ ⟨0, 0, 1⟩ ⟨1, 0, 0⟩).h| ≤
        Utils.epsilon := h.1
    rw [hch, abs_of_pos (by linarith), Utils.epsilon] at h1
    norm_num at h1
    linarith
  have hr3 : Vector3.cross
      ⟨Real.sin (Direction2.fromVector3
          ⟨Real.sqrt 2 / 2, 0, Real.sqrt 2 / 2⟩ ⟨0, 0, 1⟩ ⟨1, 0, 0⟩).h,
        -(Real.cos (Direction2.fromVector3
          ⟨Real.sqrt 2 / 2, 0, Real.sqrt 2 / 2⟩ ⟨0, 0, 1⟩ ⟨1, 0, 0⟩).h), 0⟩
      ⟨Real.cos (Direction2.fromVector3
          ⟨Real.sqrt 2 / 2, 0, Real.sqrt 2 / 2⟩ ⟨0, 0, 1⟩ ⟨1, 0, 0⟩).h,
        Real.sin (Direction2.fromVector3
          ⟨Real.sqrt 2 / 2, 0, Real.sqrt 2 / 2⟩ ⟨0, 0, 1⟩ ⟨1, 0, 0⟩).h, 0⟩ =
      ⟨0, 0, 1⟩ := by
    apply Vector3.ext
    · simp [Vector3.cross]
    · simp [Vector3.cross]
    · simp only [Vector3.cross]
      linear_combination Real.sin_sq_add_cos_sq (Direction2.fromVector3
        ⟨Real.sqrt 2 / 2, 0, Real.sqrt 2 / 2⟩ ⟨0, 0, 1⟩ ⟨1, 0, 0⟩).h
  have htv : (Direction2.fromVector3 ⟨Real.sqrt 2 / 2, 0, Real.sqrt 2 / 2⟩
      ⟨0, 0, 1⟩ ⟨1, 0, 0⟩).toVector3 ⟨0, 0, 1⟩ ⟨1, 0, 0⟩ =
      ⟨Real.cos (Direction2.fromVector3 ⟨Real.sqrt 2 / 2, 0, Real.sqrt 2 / 2⟩
          ⟨0, 0, 1⟩ ⟨1, 0, 0⟩).v *
        Real.cos (Direction2.fromVector3 ⟨Real.sqrt 2 / 2, 0, Real.sqrt 2 / 2⟩
          ⟨0, 0, 1⟩ ⟨1, 0, 0⟩).h,
        Real.cos (Direction2.fromVector3 ⟨Real.sqrt 2 / 2, 0, Real.sqrt 2 / 2⟩
          ⟨0, 0, 1⟩ ⟨1, 0, 0⟩).v *
        Real.sin (Direction2.fromVector3 ⟨Real.sqrt 2 / 2, 0, Real.sqrt 2 / 2⟩
          ⟨0, 0, 1⟩ ⟨1, 0, 0⟩).h,
        Real.sin (Direction2.fromVector3 ⟨Real.sqrt 2 / 2, 0, Real.sqrt 2 / 2⟩
          ⟨0, 0, 1⟩ ⟨1, 0, 0⟩).v⟩ := by
    show Vector3.rotateAboutOrthogonal
      (Vector3.rotateAboutOrthogonal ⟨1, 0, 0⟩ ⟨0, 0, 1⟩
        (Direction2.fromVector3 ⟨Real.sqrt 2 / 2, 0, Real.sqrt 2 / 2⟩
          ⟨0, 0, 1⟩ ⟨1, 0, 0⟩).h)
      (Vector3.cross
        (Vector3.rotateAboutOrthogonal ⟨1, 0, 0⟩ ⟨0, 0, 1⟩
          (Direction2.fromVector3 ⟨Real.sqrt 2 / 2, 0, Real.sqrt 2 / 2⟩
            ⟨0, 0, 1⟩ ⟨1, 0, 0⟩).h)
        ⟨0, 0, 1⟩)
      (Direction2.fromVector3 ⟨Real.sqrt 2 / 2, 0, Real.sqrt 2 / 2⟩
        ⟨0, 0, 1⟩ ⟨1, 0, 0⟩).v = _
    rw [hr1, hr2, Vector3.rotateAboutOrthogonal, if_neg hr1nz, hr3]
    apply Vector3.ext <;>
      simp [Vector3.times, Vector3.increasedBy]
  -- assemble the three conjuncts.
  refine ⟨?_, ?_, ?_⟩
  · rw [htv, hv4, hch, hsh, Real.cos_pi_div_four]
    have h14 : (1/4 : ℝ) ≤ 1 - (1/2 + Real.sqrt 2 / 4)^2 := by nlinarith
    have hsq : (1/2 : ℝ) ≤ Real.sqrt (1 - (1/2 + Real.sqrt 2 / 4)^2) := by
      have he : (1/2 : ℝ) = Real.sqrt (1/4) := by
        rw [show (1/4:ℝ) = (1/2)^2 by norm_num,
          Real.sqrt_sq (by norm_num : (0:ℝ) ≤ 1/2)]
      calc (1/2 : ℝ) = Real.sqrt (1/4) := he
        _ ≤ Real.sqrt (1 - (1/2 + Real.sqrt 2 / 4)^2) :=
            Real.sqrt_le_sqrt h14
    have hy0 : (⟨Real.sqrt 2 / 2, 0, Real.sqrt 2 / 2⟩ : Vector3).y = 0 := rfl
    rw [hy0, sub_zero,
      abs_of_nonneg (by positivity)]
    nlinarith
  · show Real.sqrt (Real.sqrt 2 / 2 * (Real.sqrt 2 / 2) + 0 * 0 +
      Real.sqrt 2 / 2 * (Real.sqrt 2 / 2)) = 1
    rw [show Real.sqrt 2 / 2 * (Real.sqrt 2 / 2) + 0 * 0 +
        Real.sqrt 2 / 2 * (Real.sqrt 2 / 2) = 1 from by
      linear_combination (1/2 : ℝ) * hs2sq]
    exact Real.sqrt_one
  · rw [hcr]
    intro h
    have h2 : |-(Real.sqrt 2 / 2)| ≤ Utils.epsilon := h.2.1
    rw [abs_neg, abs_of_pos (by positivity), Utils.epsilon] at h2
    norm_num at h2
    linarith

/-- Witness for C5: agreement of the two rotation operators at a concrete
orthogonal receiver/axis pair. -/
theorem rotateAbout_reduces_to_orthogonal_witness :
    Vector3.rotateAbout ⟨1, 0, 0⟩ ⟨0, 0, 1⟩ 2 =
      Vector3.rotateAboutOrthogonal ⟨1, 0, 0⟩ ⟨0, 0, 1⟩ 2 :=
  rotateAbout_reduces_to_orthogonal ⟨1, 0, 0⟩ ⟨0, 0, 1⟩ 2
    (by norm_num [Vector3.isZero, Utils.isZero, Utils.epsilon])
    (by norm_num [Vector3.dot])
    (by norm_num [Vector3.dot])

end Geometry

end
